import Mathlib

/-!
# Incident management backend: embedding and verified properties

A shallow embedding of the Go backend (`model`, `utils`, `repository`,
`services`, `handlers`) followed by theorems about it.

Conventions of the embedding

* Go strings are Lean strings; the helpers from package `strings` work on the
  list of runes of a string.
* The Go result `(*Incident, error)` of the service is a pair
  `Option Incident × Option String`, so that the four combinations of nil and
  non-nil stay expressible.
* Everything the process obtains from outside (environment variable, chat
  endpoint, JSON decoder, random source of the UUID generator, clock, database
  outcome) is a field of `Env`.
* Side effects are recorded in `World`: the rows of the incidents table and a
  trace of the calls that were made.
-/

namespace IncidentManagement

/-! ## Package `strings` -/

/-- The simple lower-case mapping of the Unicode character database outside
ASCII (1407 runes, the same in versions 14 and 15 of the standard), as the
case ranges of package `unicode` hold it: each entry is the first
and the last rune of a range, the stride between its upper-case runes, and the
image of the first rune; a rune of the range at a multiple of the stride from
the first is mapped to the image moved by the same distance. -/
def lowerRanges : List (Nat × Nat × Nat × Nat) :=
  [(0xC0, 0xD6, 1, 0xE0), (0xD8, 0xDE, 1, 0xF8), (0x100, 0x12E, 2, 0x101),
   (0x130, 0x130, 1, 0x69), (0x132, 0x136, 2, 0x133), (0x139, 0x147, 2, 0x13A),
   (0x14A, 0x176, 2, 0x14B), (0x178, 0x178, 1, 0xFF), (0x179, 0x17D, 2, 0x17A),
   (0x181, 0x181, 1, 0x253), (0x182, 0x184, 2, 0x183), (0x186, 0x186, 1, 0x254),
   (0x187, 0x187, 1, 0x188), (0x189, 0x18A, 1, 0x256), (0x18B, 0x18B, 1, 0x18C),
   (0x18E, 0x18E, 1, 0x1DD), (0x18F, 0x18F, 1, 0x259), (0x190, 0x190, 1, 0x25B),
   (0x191, 0x191, 1, 0x192), (0x193, 0x193, 1, 0x260), (0x194, 0x194, 1, 0x263),
   (0x196, 0x196, 1, 0x269), (0x197, 0x197, 1, 0x268), (0x198, 0x198, 1, 0x199),
   (0x19C, 0x19C, 1, 0x26F), (0x19D, 0x19D, 1, 0x272), (0x19F, 0x19F, 1, 0x275),
   (0x1A0, 0x1A4, 2, 0x1A1), (0x1A6, 0x1A6, 1, 0x280), (0x1A7, 0x1A7, 1, 0x1A8),
   (0x1A9, 0x1A9, 1, 0x283), (0x1AC, 0x1AC, 1, 0x1AD), (0x1AE, 0x1AE, 1, 0x288),
   (0x1AF, 0x1AF, 1, 0x1B0), (0x1B1, 0x1B2, 1, 0x28A), (0x1B3, 0x1B5, 2, 0x1B4),
   (0x1B7, 0x1B7, 1, 0x292), (0x1B8, 0x1B8, 1, 0x1B9), (0x1BC, 0x1BC, 1, 0x1BD),
   (0x1C4, 0x1C4, 1, 0x1C6), (0x1C5, 0x1C5, 1, 0x1C6), (0x1C7, 0x1C7, 1, 0x1C9),
   (0x1C8, 0x1C8, 1, 0x1C9), (0x1CA, 0x1CA, 1, 0x1CC), (0x1CB, 0x1DB, 2, 0x1CC),
   (0x1DE, 0x1EE, 2, 0x1DF), (0x1F1, 0x1F1, 1, 0x1F3), (0x1F2, 0x1F4, 2, 0x1F3),
   (0x1F6, 0x1F6, 1, 0x195), (0x1F7, 0x1F7, 1, 0x1BF), (0x1F8, 0x21E, 2, 0x1F9),
   (0x220, 0x220, 1, 0x19E), (0x222, 0x232, 2, 0x223), (0x23A, 0x23A, 1, 0x2C65),
   (0x23B, 0x23B, 1, 0x23C), (0x23D, 0x23D, 1, 0x19A), (0x23E, 0x23E, 1, 0x2C66),
   (0x241, 0x241, 1, 0x242), (0x243, 0x243, 1, 0x180), (0x244, 0x244, 1, 0x289),
   (0x245, 0x245, 1, 0x28C), (0x246, 0x24E, 2, 0x247), (0x370, 0x372, 2, 0x371),
   (0x376, 0x376, 1, 0x377), (0x37F, 0x37F, 1, 0x3F3), (0x386, 0x386, 1, 0x3AC),
   (0x388, 0x38A, 1, 0x3AD), (0x38C, 0x38C, 1, 0x3CC), (0x38E, 0x38F, 1, 0x3CD),
   (0x391, 0x3A1, 1, 0x3B1), (0x3A3, 0x3AB, 1, 0x3C3), (0x3CF, 0x3CF, 1, 0x3D7),
   (0x3D8, 0x3EE, 2, 0x3D9), (0x3F4, 0x3F4, 1, 0x3B8), (0x3F7, 0x3F7, 1, 0x3F8),
   (0x3F9, 0x3F9, 1, 0x3F2), (0x3FA, 0x3FA, 1, 0x3FB), (0x3FD, 0x3FF, 1, 0x37B),
   (0x400, 0x40F, 1, 0x450), (0x410, 0x42F, 1, 0x430), (0x460, 0x480, 2, 0x461),
   (0x48A, 0x4BE, 2, 0x48B), (0x4C0, 0x4C0, 1, 0x4CF), (0x4C1, 0x4CD, 2, 0x4C2),
   (0x4D0, 0x52E, 2, 0x4D1), (0x531, 0x556, 1, 0x561), (0x10A0, 0x10C5, 1, 0x2D00),
   (0x10C7, 0x10C7, 1, 0x2D27), (0x10CD, 0x10CD, 1, 0x2D2D), (0x13A0, 0x13EF, 1, 0xAB70),
   (0x13F0, 0x13F5, 1, 0x13F8), (0x1C90, 0x1CBA, 1, 0x10D0), (0x1CBD, 0x1CBF, 1, 0x10FD),
   (0x1E00, 0x1E94, 2, 0x1E01), (0x1E9E, 0x1E9E, 1, 0xDF), (0x1EA0, 0x1EFE, 2, 0x1EA1),
   (0x1F08, 0x1F0F, 1, 0x1F00), (0x1F18, 0x1F1D, 1, 0x1F10), (0x1F28, 0x1F2F, 1, 0x1F20),
   (0x1F38, 0x1F3F, 1, 0x1F30), (0x1F48, 0x1F4D, 1, 0x1F40), (0x1F59, 0x1F5F, 2, 0x1F51),
   (0x1F68, 0x1F6F, 1, 0x1F60), (0x1F88, 0x1F8F, 1, 0x1F80), (0x1F98, 0x1F9F, 1, 0x1F90),
   (0x1FA8, 0x1FAF, 1, 0x1FA0), (0x1FB8, 0x1FB9, 1, 0x1FB0), (0x1FBA, 0x1FBB, 1, 0x1F70),
   (0x1FBC, 0x1FBC, 1, 0x1FB3), (0x1FC8, 0x1FCB, 1, 0x1F72), (0x1FCC, 0x1FCC, 1, 0x1FC3),
   (0x1FD8, 0x1FD9, 1, 0x1FD0), (0x1FDA, 0x1FDB, 1, 0x1F76), (0x1FE8, 0x1FE9, 1, 0x1FE0),
   (0x1FEA, 0x1FEB, 1, 0x1F7A), (0x1FEC, 0x1FEC, 1, 0x1FE5), (0x1FF8, 0x1FF9, 1, 0x1F78),
   (0x1FFA, 0x1FFB, 1, 0x1F7C), (0x1FFC, 0x1FFC, 1, 0x1FF3), (0x2126, 0x2126, 1, 0x3C9),
   (0x212A, 0x212A, 1, 0x6B), (0x212B, 0x212B, 1, 0xE5), (0x2132, 0x2132, 1, 0x214E),
   (0x2160, 0x216F, 1, 0x2170), (0x2183, 0x2183, 1, 0x2184), (0x24B6, 0x24CF, 1, 0x24D0),
   (0x2C00, 0x2C2F, 1, 0x2C30), (0x2C60, 0x2C60, 1, 0x2C61), (0x2C62, 0x2C62, 1, 0x26B),
   (0x2C63, 0x2C63, 1, 0x1D7D), (0x2C64, 0x2C64, 1, 0x27D), (0x2C67, 0x2C6B, 2, 0x2C68),
   (0x2C6D, 0x2C6D, 1, 0x251), (0x2C6E, 0x2C6E, 1, 0x271), (0x2C6F, 0x2C6F, 1, 0x250),
   (0x2C70, 0x2C70, 1, 0x252), (0x2C72, 0x2C72, 1, 0x2C73), (0x2C75, 0x2C75, 1, 0x2C76),
   (0x2C7E, 0x2C7F, 1, 0x23F), (0x2C80, 0x2CE2, 2, 0x2C81), (0x2CEB, 0x2CED, 2, 0x2CEC),
   (0x2CF2, 0x2CF2, 1, 0x2CF3), (0xA640, 0xA66C, 2, 0xA641), (0xA680, 0xA69A, 2, 0xA681),
   (0xA722, 0xA72E, 2, 0xA723), (0xA732, 0xA76E, 2, 0xA733), (0xA779, 0xA77B, 2, 0xA77A),
   (0xA77D, 0xA77D, 1, 0x1D79), (0xA77E, 0xA786, 2, 0xA77F), (0xA78B, 0xA78B, 1, 0xA78C),
   (0xA78D, 0xA78D, 1, 0x265), (0xA790, 0xA792, 2, 0xA791), (0xA796, 0xA7A8, 2, 0xA797),
   (0xA7AA, 0xA7AA, 1, 0x266), (0xA7AB, 0xA7AB, 1, 0x25C), (0xA7AC, 0xA7AC, 1, 0x261),
   (0xA7AD, 0xA7AD, 1, 0x26C), (0xA7AE, 0xA7AE, 1, 0x26A), (0xA7B0, 0xA7B0, 1, 0x29E),
   (0xA7B1, 0xA7B1, 1, 0x287), (0xA7B2, 0xA7B2, 1, 0x29D), (0xA7B3, 0xA7B3, 1, 0xAB53),
   (0xA7B4, 0xA7C2, 2, 0xA7B5), (0xA7C4, 0xA7C4, 1, 0xA794), (0xA7C5, 0xA7C5, 1, 0x282),
   (0xA7C6, 0xA7C6, 1, 0x1D8E), (0xA7C7, 0xA7C9, 2, 0xA7C8), (0xA7D0, 0xA7D0, 1, 0xA7D1),
   (0xA7D6, 0xA7D8, 2, 0xA7D7), (0xA7F5, 0xA7F5, 1, 0xA7F6), (0xFF21, 0xFF3A, 1, 0xFF41),
   (0x10400, 0x10427, 1, 0x10428), (0x104B0, 0x104D3, 1, 0x104D8),
   (0x10570, 0x10594, 2, 0x10597), (0x10571, 0x1057A, 1, 0x10598),
   (0x1057D, 0x1058A, 1, 0x105A4), (0x1058D, 0x10592, 1, 0x105B4),
   (0x10595, 0x10595, 1, 0x105BC), (0x10C80, 0x10CB2, 1, 0x10CC0),
   (0x118A0, 0x118BF, 1, 0x118C0), (0x16E40, 0x16E5F, 1, 0x16E60),
   (0x1E900, 0x1E921, 1, 0x1E922)]

/-- The image of a code point under the first range that holds it; a code
point that no range holds is its own image. -/
def lowerOf (n : Nat) : List (Nat × Nat × Nat × Nat) → Nat
  | [] => n
  | (lo, hi, stride, image) :: rest =>
    if lo ≤ n ∧ n ≤ hi ∧ (n - lo) % stride = 0 then image + (n - lo) else lowerOf n rest

/-- Go `unicode.ToLower`: an ASCII rune is mapped by the letter test, every
other rune through the case ranges. -/
def toLowerRune (c : Char) : Char :=
  if c.toNat < 0x80 then
    if 'A' ≤ c ∧ c ≤ 'Z' then Char.ofNat (c.toNat + 32) else c
  else Char.ofNat (lowerOf c.toNat lowerRanges)

/-- Go `strings.ToLower`: every rune is mapped on its own. -/
def ToLower (s : String) : String := ⟨s.data.map toLowerRune⟩

/-- Whether no image of the first range is an upper-case rune of the second:
the images lie before or after the second range, or the second range has
stride 2 and the images fall between its upper-case runes. -/
def imageClear (r r2 : Nat × Nat × Nat × Nat) : Bool :=
  Nat.blt (r.2.2.2 + (r.2.1 - r.1)) r2.1 || Nat.blt r2.2.1 r.2.2.2 ||
    (r2.2.2.1 == 2 && (r.2.2.1 == 2 || r.1 == r.2.1) && (r.2.2.2 + r2.1) % 2 == 1)

/-- Whether the images of a range are valid code points, none of them an ASCII
capital, and all of them on one side of the ASCII limit. -/
def imageSound (r : Nat × Nat × Nat × Nat) : Bool :=
  (Nat.blt (r.2.2.2 + (r.2.1 - r.1)) 0xD800 ||
      (Nat.blt 0xDFFF r.2.2.2 && Nat.blt (r.2.2.2 + (r.2.1 - r.1)) 0x110000)) &&
    (Nat.ble 0x80 r.2.2.2 ||
      (Nat.blt (r.2.2.2 + (r.2.1 - r.1)) 0x80 && Nat.blt 90 r.2.2.2))

/-- Whether the second list is an initial segment of the first. -/
def startsWith : List Char → List Char → Bool
  | _, [] => true
  | [], _ :: _ => false
  | c :: cs, p :: ps => c == p && startsWith cs ps

/-- Whether the second list occurs as a contiguous block of the first. -/
def containsChars : List Char → List Char → Bool
  | [], sub => startsWith [] sub
  | c :: cs, sub => startsWith (c :: cs) sub || containsChars cs sub

/-- Go `strings.Contains`. -/
def Contains (s substr : String) : Bool := containsChars s.data substr.data

/-- Go `unicode.IsSpace`: the Latin-1 spaces and the runes of category Z. -/
def isSpace (c : Char) : Bool :=
  let n := c.toNat
  n == 0x20 || (0x09 ≤ n && n ≤ 0x0D) || n == 0x85 || n == 0xA0 || n == 0x1680 ||
    (0x2000 ≤ n && n ≤ 0x200A) || n == 0x2028 || n == 0x2029 || n == 0x202F ||
    n == 0x205F || n == 0x3000

/-- Removal of the leading white space of a rune list. -/
def trimLeft : List Char → List Char
  | [] => []
  | c :: cs => if isSpace c then trimLeft cs else c :: cs

/-- Go `strings.TrimSpace`. -/
def TrimSpace (s : String) : String :=
  ⟨(trimLeft (trimLeft s.data).reverse).reverse⟩

/-! ## Package `model` -/

/-- The record `model.Incident`. The two `time.Time` fields are kept as a
number of clock ticks, `0` being the zero time. -/
structure Incident where
  ID : String
  Title : String
  Description : String
  Status : String
  Priority : String
  AISeverity : String
  AICategory : String
  CreatedAt : Nat
  UpdatedAt : Nat
  deriving DecidableEq, Repr

/-- Go `Incident.BeforeCreate`: an empty ID is replaced by the string form of a
new UUID, here the value the generator hands out. -/
def Incident.BeforeCreate (incident : Incident) (uuid : String) : Incident :=
  if incident.ID = "" then { incident with ID := uuid } else incident

/-- Go `Incident.ValidateSeverity`: exact membership of `AISeverity`. -/
def Incident.ValidateSeverity (incident : Incident) : Bool :=
  ["low", "medium", "high"].any fun severity => incident.AISeverity == severity

/-- Go `Incident.ValidateCategory`: exact membership of `AICategory`. -/
def Incident.ValidateCategory (incident : Incident) : Bool :=
  ["network", "software", "hardware", "security"].any fun category =>
    incident.AICategory == category

/-! ## Package `uuid` -/

/-- The lower-case hexadecimal digit of the low four bits of a number. -/
def hexDigit (n : Nat) : Char :=
  if n % 16 < 10 then Char.ofNat (48 + n % 16) else Char.ofNat (87 + n % 16)

/-- The two hexadecimal digits of a byte. -/
def hexByte (b : Nat) : List Char := [hexDigit (b / 16), hexDigit b]

/-- Go `uuid.New`: sixteen bytes read from the random source, here the list
`random` with 0 for a missing byte, then the version set to 4 and the variant
to RFC 4122. -/
def newUUID (random : List Nat) : List Nat :=
  (List.range 16).map fun k =>
    if k = 6 then random.getD k 0 % 16 + 0x40
    else if k = 8 then random.getD k 0 % 64 + 0x80
    else random.getD k 0 % 256

/-- Go `UUID.String`: the bytes in hexadecimal, grouped 8-4-4-4-12. -/
def uuidString (u : List Nat) : String :=
  ⟨(u.take 4).flatMap hexByte ++ '-' :: ((u.drop 4).take 2).flatMap hexByte ++
    '-' :: ((u.drop 6).take 2).flatMap hexByte ++
    '-' :: ((u.drop 8).take 2).flatMap hexByte ++
    '-' :: ((u.drop 10).take 6).flatMap hexByte⟩

/-! ## The outside world -/

/-- The value `AIService.AnalyzeIncident` produces on success. -/
structure AIAnalysisResult where
  Severity : String
  Category : String
  deriving DecidableEq, Repr

/-- What one request obtains from outside the program. -/
structure Env where
  /-- Value of `os.Getenv("OPENAI_API_KEY")`. -/
  apiKey : String
  /-- The call `client.CreateChatCompletion`: from the prompt to an error or to
  the message contents of the returned choices. -/
  chat : String → Except String (List String)
  /-- The call `json.Unmarshal` into an `AIAnalysisResult`; `none` is a decoding
  error. -/
  unmarshal : String → Option AIAnalysisResult
  /-- The bytes that `uuid.New` reads from the random source. -/
  random : List Nat
  /-- Current time of the database layer. -/
  now : Nat
  /-- Error reported by the database for an insert, if any. -/
  insertErr : Option String
  /-- Error reported by the database for a query, if any. -/
  findErr : Option String

/-- Value of `uuid.New().String()`. -/
def Env.uuid (env : Env) : String := uuidString (newUUID env.random)

/-- One recorded call. -/
inductive Event where
  | analyze (title description : String)
  | chat (prompt : String)
  | create (incident : Incident)
  | getAll
  deriving DecidableEq, Repr

/-- The mutable part: the incidents table and the calls made so far. -/
structure World where
  rows : List Incident
  trace : List Event
  deriving DecidableEq, Repr

/-- Appends one event to the trace. -/
def World.log (w : World) (e : Event) : World :=
  { w with trace := w.trace ++ [e] }

/-! ## Package `encoding/json`, as far as the classifier needs it -/

/-- Skips JSON white space. -/
def skipWS : List Char → List Char
  | [] => []
  | c :: cs => if c = ' ' ∨ c = '\t' ∨ c = '\n' ∨ c = '\r' then skipWS cs else c :: cs

/-- Reads the body of a string literal up to its closing quote. Only printable
ASCII without escape sequences is accepted. -/
def scanBody : List Char → List Char → Option (List Char × List Char)
  | [], _ => none
  | c :: cs, acc =>
    if c = '"' then some (acc.reverse, cs)
    else if c = '\\' ∨ c.toNat < 0x20 ∨ 0x7F ≤ c.toNat then none
    else scanBody cs (c :: acc)

/-- Reads one string literal: its content and the input after it. -/
def scanString : List Char → Option (List Char × List Char)
  | '"' :: cs => scanBody cs []
  | _ => none

/-- Stores a decoded member: field names are matched without regard to ASCII
letter case, other members are dropped. -/
def assignMember (r : AIAnalysisResult) (key value : List Char) : AIAnalysisResult :=
  if key.map toLowerRune = "severity".data then { r with Severity := ⟨value⟩ }
  else if key.map toLowerRune = "category".data then { r with Category := ⟨value⟩ }
  else r

/-- Reads the members of an object after its opening brace (or after a comma
when `first` is false). -/
def scanMembers : Nat → Bool → List Char → AIAnalysisResult → Option AIAnalysisResult
  | 0, _, _, _ => none
  | fuel + 1, first, cs, r =>
    match skipWS cs with
    | '}' :: rest => if first ∧ skipWS rest = [] then some r else none
    | cs1 =>
      match scanString cs1 with
      | none => none
      | some (key, cs2) =>
        match skipWS cs2 with
        | ':' :: cs3 =>
          match scanString (skipWS cs3) with
          | none => none
          | some (value, cs4) =>
            match skipWS cs4 with
            | ',' :: cs5 => scanMembers fuel false cs5 (assignMember r key value)
            | '}' :: rest =>
              if skipWS rest = [] then some (assignMember r key value) else none
            | _ => none
        | _ => none

/-- A decoder for the replies the prompt asks for: one flat JSON object whose
member names and values are string literals of printable ASCII without escape
sequences, decoded as `json.Unmarshal` decodes it into an `AIAnalysisResult`
(fields start empty, names match case-insensitively, a later duplicate wins).
On any other input it reports a decoding error. It serves as the `unmarshal`
of a concrete `Env`; general statements range over every decoder. -/
def jsonUnmarshal (content : String) : Option AIAnalysisResult :=
  match skipWS content.data with
  | '{' :: cs => scanMembers (cs.length + 1) true cs ⟨"", ""⟩
  | _ => none

/-! ## Package `services`: the classifier -/

namespace AIService

/-- Go `AIService.isValidSeverity`. -/
def isValidSeverity (severity : String) : Bool :=
  ["low", "medium", "high"].any fun valid => ToLower severity == valid

/-- Go `AIService.isValidCategory`. -/
def isValidCategory (category : String) : Bool :=
  ["network", "software", "hardware", "security"].any fun valid => ToLower category == valid

/-- Go `AIService.extractValuesFromText`. -/
def extractValuesFromText (text : String) : AIAnalysisResult :=
  let result : AIAnalysisResult := ⟨"medium", "software"⟩
  let text := ToLower text
  let result :=
    if Contains text "\"severity\"" ∨ Contains text "severity" then
      if Contains text "\"low\"" ∨ Contains text "low" then
        { result with Severity := "low" }
      else if Contains text "\"high\"" ∨ Contains text "high" then
        { result with Severity := "high" }
      else result
    else result
  let result :=
    if Contains text "\"category\"" ∨ Contains text "category" then
      if Contains text "\"network\"" ∨ Contains text "network" then
        { result with Category := "network" }
      else if Contains text "\"hardware\"" ∨ Contains text "hardware" then
        { result with Category := "hardware" }
      else if Contains text "\"security\"" ∨ Contains text "security" then
        { result with Category := "security" }
      else result
    else
      if Contains text "hardware" then { result with Category := "hardware" }
      else if Contains text "network" then { result with Category := "network" }
      else if Contains text "security" then { result with Category := "security" }
      else result
  result

/-- The prompt built by `fmt.Sprintf` in `AnalyzeIncident`. -/
def prompt (title description : String) : String :=
  "\nAnalyze the following incident and determine:\n" ++
  "1. Severity: Choose from \"low\", \"medium\", or \"high\"\n" ++
  "2. Category: Choose from \"network\", \"software\", \"hardware\", or \"security\"\n" ++
  "\nConsider these guidelines:\n" ++
  "- Severity: Based on potential impact, urgency, and scope\n" ++
  "- Category: Based on the type of issue described\n" ++
  "\nIncident Title: " ++ title ++ "\n" ++
  "Incident Description: " ++ description ++ "\n" ++
  "\nRespond with a JSON object in this exact format:\n" ++
  "\x7b\n" ++
  "  \"severity\": \"low|medium|high\",\n" ++
  "  \"category\": \"network|software|hardware|security\"\n" ++
  "\x7d\n"

/-- The re-validation at the end of `AnalyzeIncident`. -/
def revalidate (result : AIAnalysisResult) : AIAnalysisResult :=
  let result :=
    if !isValidSeverity result.Severity then { result with Severity := "medium" } else result
  let result :=
    if !isValidCategory result.Category then { result with Category := "software" } else result
  result

/-- Go `AIService.AnalyzeIncident`. Every return statement of the Go function
gives either a result or an error, never both and never neither, hence the
sum type. -/
def AnalyzeIncident (env : Env) (w : World) (title description : String) :
    World × Except String AIAnalysisResult :=
  let w := w.log (.analyze title description)
  if env.apiKey = "" then
    (w, .ok ⟨"medium", "software"⟩)
  else
    let w := w.log (.chat (prompt title description))
    match env.chat (prompt title description) with
    | .error err => (w, .error ("OpenAI API error: " ++ err))
    | .ok [] => (w, .error "no response from OpenAI")
    | .ok (choice :: _) =>
      let content := TrimSpace choice
      let result :=
        match env.unmarshal content with
        | some result => result
        | none => extractValuesFromText content
      (w, .ok (revalidate result))

end AIService

/-! ## Package `utils`, with the rules of `validator/v10` that the tags use -/

/-- One rule of a `validate:"..."` struct tag. -/
inductive Tag where
  | required
  | omitempty
  | min (n : Nat)
  | max (n : Nat)
  | oneof (param : String)
  | uuid4
  deriving DecidableEq, Repr

/-- The text `err.Tag()` reports for a rule. -/
def Tag.name : Tag → String
  | .required => "required"
  | .omitempty => "omitempty"
  | .min _ => "min"
  | .max _ => "max"
  | .oneof _ => "oneof"
  | .uuid4 => "uuid4"

/-- The text `err.Param()` reports for a rule. -/
def Tag.param : Tag → String
  | .min n => Nat.repr n
  | .max n => Nat.repr n
  | .oneof p => p
  | _ => ""

/-- Splits a rune list at blanks, dropping empty pieces; `cur` is the piece
being read, reversed. -/
def splitBlanks : List Char → List Char → List String
  | [], cur => if cur = [] then [] else [⟨cur.reverse⟩]
  | c :: cs, cur =>
    if c = ' ' ∨ c = '\t' ∨ c = '\n' ∨ c = '\r' ∨ c = '\x0c' then
      (if cur = [] then [] else [⟨cur.reverse⟩]) ++ splitBlanks cs []
    else splitBlanks cs (c :: cur)

/-- The allowed values of a `oneof` parameter (no quoted values occur in the
tags of this program). -/
def oneofValues (param : String) : List String := splitBlanks param.data []

/-- Lower-case hexadecimal digit. -/
def isHexLower (c : Char) : Bool :=
  ('0' ≤ c && c ≤ '9') || ('a' ≤ c && c ≤ 'f')

/-- The rune allowed at position `k` of a version-4 UUID. -/
def uuid4RuneOK (k : Nat) (c : Char) : Bool :=
  if k = 8 ∨ k = 13 ∨ k = 18 ∨ k = 23 then c == '-'
  else if k = 14 then c == '4'
  else if k = 19 then c == '8' || c == '9' || c == 'a' || c == 'b'
  else isHexLower c

/-- The rule `uuid4`: the whole value matches
`[0-9a-f]{8}-[0-9a-f]{4}-4[0-9a-f]{3}-[89ab][0-9a-f]{3}-[0-9a-f]{12}`. -/
def isUUID4 (v : String) : Bool :=
  v.data.length == 36 &&
    (List.range 36).all fun k =>
      match v.data.get? k with
      | some c => uuid4RuneOK k c
      | none => false

/-- Whether a string value satisfies a rule; lengths count runes. -/
def Tag.holds (t : Tag) (v : String) : Bool :=
  match t with
  | .required => v != ""
  | .omitempty => true
  | .min n => decide (n ≤ v.data.length)
  | .max n => decide (v.data.length ≤ n)
  | .oneof p => (oneofValues p).any fun allowed => allowed == v
  | .uuid4 => isUUID4 v

/-- The rules of a field are tried in order and the first one that fails is
reported; `omitempty` ends the check of an empty value. -/
def firstFailure : List Tag → String → Option Tag
  | [], _ => none
  | .omitempty :: ts, v => if v = "" then none else firstFailure ts v
  | t :: ts, v => if t.holds v then firstFailure ts v else some t

/-- One string field of a struct under validation: Go name, value, rules. -/
structure Field where
  Name : String
  Value : String
  Tags : List Tag
  deriving DecidableEq, Repr

/-- One element of `validator.ValidationErrors`. -/
structure FieldError where
  Field : String
  Tag : String
  Param : String
  deriving DecidableEq, Repr

/-- The error of one field, if it has one. -/
def validateField (f : Field) : Option FieldError :=
  match firstFailure f.Tags f.Value with
  | none => none
  | some t => some ⟨f.Name, t.name, t.param⟩

/-- Go `validate.Struct`: the field errors in field order; the empty list stands
for a nil error. -/
def validateStruct (s : List Field) : List FieldError := s.filterMap validateField

/-- Assignment `m[k] = v` on a map kept as an association list. -/
def mapSet : List (String × String) → String → String → List (String × String)
  | [], k, v => [(k, v)]
  | (k', v') :: rest, k, v =>
    if k' = k then (k, v) :: rest else (k', v') :: mapSet rest k v

/-- The `switch err.Tag()` of `ValidateAndGetErrors`. -/
def errorMessage (field tag param : String) : String :=
  if tag = "required" then field ++ " is required"
  else if tag = "min" then field ++ " must be at least " ++ param ++ " characters"
  else if tag = "max" then field ++ " must be at most " ++ param ++ " characters"
  else if tag = "oneof" then field ++ " must be one of: " ++ param
  else if tag = "uuid4" then field ++ " must be a valid UUID"
  else field ++ " failed validation: " ++ tag

/-- Go `utils.ValidateAndGetErrors`; `none` is the nil map. -/
def ValidateAndGetErrors (s : List Field) : Option (List (String × String)) :=
  match validateStruct s with
  | [] => none
  | errs =>
    some (errs.foldl
      (fun errors err =>
        mapSet errors (ToLower err.Field) (errorMessage (ToLower err.Field) err.Tag err.Param))
      [])

/-- Go `utils.SanitizeString`. -/
def SanitizeString (s : String) : String := TrimSpace s

/-- The validated fields of `model.Incident` with the rules of their struct
tags; the two time fields carry no rule. -/
def Incident.fields (i : Incident) : List Field :=
  [ ⟨"ID", i.ID, [.omitempty, .uuid4]⟩,
    ⟨"Title", i.Title, [.required, .min 1, .max 200]⟩,
    ⟨"Description", i.Description, [.required, .min 1, .max 1000]⟩,
    ⟨"Status", i.Status, [.omitempty, .oneof "open in_progress resolved closed"]⟩,
    ⟨"Priority", i.Priority, [.omitempty, .oneof "low medium high critical"]⟩,
    ⟨"AISeverity", i.AISeverity, [.omitempty, .oneof "low medium high"]⟩,
    ⟨"AICategory", i.AICategory, [.omitempty, .oneof "network software hardware security"]⟩ ]

/-! ## Package `repository`, with the part of gorm that `Create` runs -/

/-- What gorm fills in while it builds the insert: a zero field whose column
has a `default:` tag takes that default, and zero `autoCreateTime` /
`autoUpdateTime` fields take the current time. -/
def applyColumnDefaults (now : Nat) (incident : Incident) : Incident :=
  { incident with
    Status := if incident.Status = "" then "open" else incident.Status
    Priority := if incident.Priority = "" then "medium" else incident.Priority
    AISeverity := if incident.AISeverity = "" then "medium" else incident.AISeverity
    AICategory := if incident.AICategory = "" then "software" else incident.AICategory
    CreatedAt := if incident.CreatedAt = 0 then now else incident.CreatedAt
    UpdatedAt := if incident.UpdatedAt = 0 then now else incident.UpdatedAt }

namespace IncidentRepository

/-- Go `IncidentRepository.Create`: gorm runs the `BeforeCreate` hook, fills the
defaults and inserts the row. The second component is the incident behind the
pointer after the call, the third the returned error. -/
def Create (env : Env) (w : World) (incident : Incident) :
    World × Incident × Option String :=
  let w := w.log (.create incident)
  let incident := incident.BeforeCreate env.uuid
  let incident := applyColumnDefaults env.now incident
  match env.insertErr with
  | some err => (w, incident, some err)
  | none => ({ w with rows := w.rows ++ [incident] }, incident, none)

/-- Go `IncidentRepository.GetAll`. -/
def GetAll (env : Env) (w : World) : World × List Incident × Option String :=
  let w := w.log .getAll
  match env.findErr with
  | some err => (w, [], some err)
  | none => (w, w.rows, none)

end IncidentRepository

/-! ## Package `services`: the pipeline -/

namespace IncidentService

/-- Go `IncidentService.CreateIncident`. -/
def CreateIncident (env : Env) (w : World) (incident : Incident) :
    World × Option Incident × Option String :=
  let incident := if incident.Status = "" then { incident with Status := "open" } else incident
  let incident :=
    if incident.Priority = "" then { incident with Priority := "medium" } else incident
  match AIService.AnalyzeIncident env w incident.Title incident.Description with
  | (w, analysis) =>
    let incident :=
      match analysis with
      | .error _ => { incident with AISeverity := "medium", AICategory := "software" }
      | .ok aiResult =>
        { incident with AISeverity := aiResult.Severity, AICategory := aiResult.Category }
    match IncidentRepository.Create env w incident with
    | (w, _, some err) => (w, none, some err)
    | (w, incident, none) => (w, some incident, none)

/-- Go `IncidentService.GetAllIncidents`. -/
def GetAllIncidents (env : Env) (w : World) : World × List Incident × Option String :=
  IncidentRepository.GetAll env w

end IncidentService

/-! ## Package `handlers` -/

/-- The `details` member of an error body. -/
inductive Details where
  | text (s : String)
  | fields (m : List (String × String))
  deriving DecidableEq, Repr

/-- The JSON body of a response. -/
inductive Body where
  | error (label : String) (details : Details)
  | incident (i : Incident)
  | null
  deriving DecidableEq, Repr

/-- Status code and body written by a handler. -/
structure Response where
  Code : Nat
  Body : Body
  deriving DecidableEq, Repr

namespace IncidentHandler

/-- Go `IncidentHandler.CreateIncident`; `bound` is the outcome of
`c.ShouldBindJSON(&incident)`: the binding error or the decoded incident. -/
def CreateIncident (env : Env) (w : World) (bound : Except String Incident) :
    World × Response :=
  match bound with
  | .error err => (w, ⟨400, .error "Invalid JSON format" (.text err)⟩)
  | .ok incident =>
    match ValidateAndGetErrors incident.fields with
    | some validationErrors =>
      (w, ⟨400, .error "Validation failed" (.fields validationErrors)⟩)
    | none =>
      let incident :=
        if incident.Status = "" then { incident with Status := "open" } else incident
      let incident :=
        if incident.Priority = "" then { incident with Priority := "medium" } else incident
      match IncidentService.CreateIncident env w incident with
      | (w, _, some err) => (w, ⟨500, .error "Failed to create incident" (.text err)⟩)
      | (w, some createdIncident, none) => (w, ⟨201, .incident createdIncident⟩)
      | (w, none, none) => (w, ⟨201, .null⟩)

end IncidentHandler

/-! ## The validator's contract, in the words of the specification -/

/-- The keys under which the contract of the validator expects a violation, in
field order: title and description must have 1 to 200 and 1 to 1000
characters, and status, priority, ai_severity and ai_category must be empty or
a member of their closed set. -/
def Incident.violatingKeys (i : Incident) : List String :=
  (if 1 ≤ i.Title.length ∧ i.Title.length ≤ 200 then [] else ["title"]) ++
  (if 1 ≤ i.Description.length ∧ i.Description.length ≤ 1000 then [] else ["description"]) ++
  (if i.Status = "" ∨ i.Status ∈ ["open", "in_progress", "resolved", "closed"] then []
    else ["status"]) ++
  (if i.Priority = "" ∨ i.Priority ∈ ["low", "medium", "high", "critical"] then []
    else ["priority"]) ++
  (if i.AISeverity = "" ∨ i.AISeverity ∈ ["low", "medium", "high"] then []
    else ["aiseverity"]) ++
  (if i.AICategory = "" ∨ i.AICategory ∈ ["network", "software", "hardware", "security"] then []
    else ["aicategory"])

/-! ## The textual scan, in the words of the specification -/

/-- Position of the first occurrence of the second list in the first, as Go
`strings.Index` counts it on ASCII text; `none` when it does not occur. -/
def indexChars : List Char → List Char → Option Nat
  | [], sub => if startsWith [] sub then some 0 else none
  | c :: cs, sub =>
    if startsWith (c :: cs) sub then some 0 else (indexChars cs sub).map (· + 1)

/-- The keyword that occurs earliest in the text ("the first it finds
textually"), or the fallback when no keyword occurs. -/
def earliestKeyword (text : String) (keywords : List String) (fallback : String) : String :=
  match keywords.filterMap fun k => (indexChars text.data k.data).map fun n => (n, k) with
  | [] => fallback
  | p :: ps => (ps.foldl (fun best q => if q.1 < best.1 then q else best) p).2

/-- Lower-case mapping of one ASCII letter; every other rune is unchanged. -/
def asciiLowerRune (c : Char) : Char :=
  if 'A' ≤ c ∧ c ≤ 'Z' then Char.ofNat (c.toNat + 32) else c

/-- The text with its ASCII letters in lower case. -/
def asciiLower (s : String) : String := ⟨s.data.map asciiLowerRune⟩

/-- Upper-case mapping of one ASCII letter; every other rune is unchanged. -/
def toUpperRune (c : Char) : Char :=
  if 'a' ≤ c ∧ c ≤ 'z' then Char.ofNat (c.toNat - 32) else c

/-- The text with its ASCII letters in upper case. -/
def ToUpper (s : String) : String := ⟨s.data.map toUpperRune⟩

/-- Whether two runes are equal or differ only in the case of an ASCII
letter. -/
def sameLetter (c d : Char) : Bool :=
  c == d || ('A' ≤ c && c ≤ 'Z' && d == toLowerRune c) ||
    ('a' ≤ c && c ≤ 'z' && d == toUpperRune c)

/-- Whether the second rune list is the first with the case of some ASCII
letters changed. -/
def caseVariantChars : List Char → List Char → Bool
  | [], [] => true
  | c :: cs, d :: ds => sameLetter c d && caseVariantChars cs ds
  | _, _ => false

/-- Whether the second text is the first with the case of some ASCII letters
changed. -/
def caseVariant (s t : String) : Bool := caseVariantChars s.data t.data

/-! ## The textual scan, as a reference definition on the lower-cased text -/

/-- The reference definition of the scan on a lower-cased text t, by plain
substring tests: severity is low if t contains "severity" and "low", else
high if t contains "severity" and "high", else medium; category, when t
contains "category", is network, else hardware, else security, and when t
lacks "category" it is hardware, else network, else security; software when
nothing matches. -/
def referenceScan (t : String) : AIAnalysisResult :=
  { Severity :=
      if Contains t "severity" ∧ Contains t "low" then "low"
      else if Contains t "severity" ∧ Contains t "high" then "high"
      else "medium"
    Category :=
      if Contains t "category" then
        (if Contains t "network" then "network"
         else if Contains t "hardware" then "hardware"
         else if Contains t "security" then "security"
         else "software")
      else
        (if Contains t "hardware" then "hardware"
         else if Contains t "network" then "network"
         else if Contains t "security" then "security"
         else "software") }

/-! ## Concrete environments and inputs used to evaluate the code -/

/-- The table is empty and nothing has been called. -/
def emptyWorld : World := ⟨[], []⟩

/-- A candidate as the API hands it over: title and description only. -/
def sampleIncident : Incident :=
  ⟨"", "Router down", "Core router does not answer", "", "", "", "", 0, 0⟩

/-- The reply of an endpoint that writes the classification in upper case. -/
def upperCaseReply : String :=
  "\x7b\"severity\":\"HIGH\",\"category\":\"Network\"\x7d"

/-- Live mode: a key is set, the endpoint answers `upperCaseReply`, the
database accepts the insert. -/
def liveEnv : Env :=
  { apiKey := "sk-test"
    chat := fun _ => .ok [upperCaseReply]
    unmarshal := jsonUnmarshal
    random := [0x0b, 0x8f, 0x7a, 0x52, 0x3c, 0x1d, 0x4e, 0x6f,
      0x9a, 0x2b, 0x5d, 0x7c, 0x8e, 0x9f, 0x0a, 0x1b]
    now := 1700000000
    insertErr := none
    findErr := none }

/-- Static-default mode: no key is set. -/
def offlineEnv : Env := { liveEnv with apiKey := "" }

/-- Live mode with an endpoint that cannot be reached. -/
def unreachableEnv : Env := { liveEnv with chat := fun _ => .error "connection refused" }

/-- Live mode with a database that rejects the insert. -/
def brokenStoreEnv : Env := { liveEnv with insertErr := some "database is locked" }

/-- A candidate without a title. -/
def untitledIncident : Incident := { sampleIncident with Title := "" }

/-- The struct of `TestValidateAndGetErrors_ErrorMessages` with its values. -/
def messageTestStruct : List Field :=
  [ ⟨"Title", "", [.required, .min 1, .max 200]⟩,
    ⟨"Description", "", [.required, .min 1, .max 1000]⟩,
    ⟨"Status", "invalid", [.oneof "open in_progress resolved closed"]⟩ ]

/-- The row the store writes for `sampleIncident` in static-default mode. -/
def offlineCreated : Incident :=
  ⟨"0b8f7a52-3c1d-4e6f-9a2b-5d7c8e9f0a1b", "Router down", "Core router does not answer",
    "open", "medium", "medium", "software", 1700000000, 1700000000⟩

/-- A reply in prose that names high before low. -/
def highBeforeLowText : String := "Severity: high, not low"

/-- A reply in prose that names security before network. -/
def securityBeforeNetworkText : String := "Category: security, not network"

/-- A candidate that carries an id chosen by the caller. -/
def suppliedIdIncident : Incident :=
  { sampleIncident with ID := "123e4567-e89b-42d3-a456-426614174000" }

/-- Live mode with an endpoint that answers an object without category. -/
def partialReplyEnv : Env :=
  { liveEnv with chat := fun _ => .ok ["\x7b\"severity\":\"high\"\x7d"] }

/-- Live mode with an endpoint whose only choice has empty content. -/
def emptyReplyEnv : Env := { liveEnv with chat := fun _ => .ok [""] }

/-- Live mode with an endpoint that returns no choice. -/
def noChoiceEnv : Env := { liveEnv with chat := fun _ => .ok [] }

/-- Live mode with a reply that decodes to a severity spelled with the dotted
capital U+0130 and a category spelled with the Kelvin sign U+212A. -/
def foldedReplyEnv : Env :=
  { liveEnv with
    chat := fun _ => .ok ["reply"]
    unmarshal := fun _ => some ⟨"H\u0130GH", "NETWOR\u212A"⟩ }

/-- A table that holds one row. -/
def oneRowWorld : World := ⟨[offlineCreated], []⟩

/-- Every entry that validation of an incident can report: key and message. -/
def incidentEntries : List (String × String) :=
  [ ("id", "id must be a valid UUID"),
    ("title", "title is required"),
    ("title", "title must be at most 200 characters"),
    ("description", "description is required"),
    ("description", "description must be at most 1000 characters"),
    ("status", "status must be one of: open in_progress resolved closed"),
    ("priority", "priority must be one of: low medium high critical"),
    ("aiseverity", "aiseverity must be one of: low medium high"),
    ("aicategory", "aicategory must be one of: network software hardware security") ]

/-- An incident whose AI fields are outside their sets and whose other fields
pass. -/
def badAIFieldsIncident : Incident :=
  { sampleIncident with AISeverity := "critical", AICategory := "database" }

/-! ## Lemmas on the lower-case mapping -/

theorem lowerRanges_clear :
    (lowerRanges.all fun r => lowerRanges.all fun r2 => imageClear r r2) = true := by
  decide!

theorem lowerRanges_sound : (lowerRanges.all imageSound) = true := by
  decide!

theorem lowerOf_eq_self (n : Nat) (R : List (Nat × Nat × Nat × Nat))
    (h : ∀ r ∈ R, ¬ (r.1 ≤ n ∧ n ≤ r.2.1 ∧ (n - r.1) % r.2.2.1 = 0)) : lowerOf n R = n := by
  induction R with
  | nil => rfl
  | cons r rest ih =>
    obtain ⟨lo, hi, stride, image⟩ := r
    have h0 := h (lo, hi, stride, image) (List.mem_cons_self _ _)
    simp only [lowerOf]
    rw [if_neg h0]
    exact ih fun r hr => h r (List.mem_cons_of_mem _ hr)

theorem lowerOf_cases (n : Nat) (R : List (Nat × Nat × Nat × Nat)) :
    lowerOf n R = n ∨
    ∃ r ∈ R, (r.1 ≤ n ∧ n ≤ r.2.1 ∧ (n - r.1) % r.2.2.1 = 0) ∧
      lowerOf n R = r.2.2.2 + (n - r.1) := by
  induction R with
  | nil => exact Or.inl rfl
  | cons r rest ih =>
    obtain ⟨lo, hi, stride, image⟩ := r
    by_cases h0 : lo ≤ n ∧ n ≤ hi ∧ (n - lo) % stride = 0
    · right
      refine ⟨(lo, hi, stride, image), List.mem_cons_self _ _, h0, ?_⟩
      simp only [lowerOf]
      rw [if_pos h0]
    · simp only [lowerOf]
      rw [if_neg h0]
      rcases ih with h | ⟨r, hr, hh, he⟩
      · exact Or.inl h
      · exact Or.inr ⟨r, List.mem_cons_of_mem _ hr, hh, he⟩

theorem imageClear_spec (r r2 : Nat × Nat × Nat × Nat) (n : Nat)
    (hc : imageClear r r2 = true)
    (hn : r.1 ≤ n ∧ n ≤ r.2.1 ∧ (n - r.1) % r.2.2.1 = 0) :
    ¬ (r2.1 ≤ r.2.2.2 + (n - r.1) ∧ r.2.2.2 + (n - r.1) ≤ r2.2.1 ∧
      (r.2.2.2 + (n - r.1) - r2.1) % r2.2.2.1 = 0) := by
  obtain ⟨lo, hi, stride, image⟩ := r
  obtain ⟨lo2, hi2, stride2, image2⟩ := r2
  simp only [imageClear, Bool.or_eq_true, Bool.and_eq_true, Nat.blt_eq, beq_iff_eq] at hc
  simp only at hn ⊢
  obtain ⟨h1, h2, h3⟩ := hn
  rcases hc with (hc | hc) | ⟨⟨hs2, hs⟩, hp⟩
  · omega
  · omega
  · subst hs2
    rcases hs with hs | hs
    · subst hs
      omega
    · have : n - lo = 0 := by omega
      omega

/-- An image under the ranges is a valid code point, no ASCII capital, and the
ranges map it to itself unless it is ASCII. -/
theorem lowerRanges_image (n : Nat) (r : Nat × Nat × Nat × Nat) (hr : r ∈ lowerRanges)
    (hn : r.1 ≤ n ∧ n ≤ r.2.1 ∧ (n - r.1) % r.2.2.1 = 0) :
    Nat.isValidChar (r.2.2.2 + (n - r.1)) ∧
    ¬ (65 ≤ r.2.2.2 + (n - r.1) ∧ r.2.2.2 + (n - r.1) ≤ 90) ∧
    lowerOf (r.2.2.2 + (n - r.1)) lowerRanges = r.2.2.2 + (n - r.1) := by
  have hclear := lowerRanges_clear
  have hsound := lowerRanges_sound
  rw [List.all_eq_true] at hclear hsound
  have hs := hsound r hr
  have hc := hclear r hr
  rw [List.all_eq_true] at hc
  refine ⟨?_, ?_, ?_⟩
  · obtain ⟨lo, hi, stride, image⟩ := r
    simp only [imageSound, Bool.or_eq_true, Bool.and_eq_true, Nat.blt_eq, Nat.ble_eq] at hs
    simp only at hn ⊢
    unfold Nat.isValidChar
    omega
  · obtain ⟨lo, hi, stride, image⟩ := r
    simp only [imageSound, Bool.or_eq_true, Bool.and_eq_true, Nat.blt_eq, Nat.ble_eq] at hs
    simp only at hn ⊢
    omega
  · exact lowerOf_eq_self _ _ fun r2 hr2 => imageClear_spec r r2 n (hc r2 hr2) hn

theorem toNat_ofNat_of_valid (m : Nat) (h : Nat.isValidChar m) : (Char.ofNat m).toNat = m := by
  unfold Char.ofNat
  rw [dif_pos h]
  rfl

/-- The lower-case mapping of a rune is idempotent. -/
theorem toLowerRune_idempotent (c : Char) : toLowerRune (toLowerRune c) = toLowerRune c := by
  by_cases ha : c.toNat < 0x80
  · by_cases hu : 'A' ≤ c ∧ c ≤ 'Z'
    · have a : ('A' : Char).val.toNat ≤ c.val.toNat := hu.1
      have b : c.val.toNat ≤ ('Z' : Char).val.toNat := hu.2
      have e : c = Char.ofNat c.toNat := (Char.ofNat_toNat c).symm
      have hb : 65 ≤ c.toNat ∧ c.toNat ≤ 90 := ⟨a, b⟩
      rw [e]
      generalize c.toNat = n at hb
      obtain ⟨h1, h2⟩ := hb
      interval_cases n <;> decide
    · have : toLowerRune c = c := by simp [toLowerRune, ha, hu]
      rw [this, this]
  · have hc : toLowerRune c = Char.ofNat (lowerOf c.toNat lowerRanges) := by
      simp [toLowerRune, ha]
    rcases lowerOf_cases c.toNat lowerRanges with h | ⟨r, hr, hn, he⟩
    · have : toLowerRune c = c := by rw [hc, h, Char.ofNat_toNat]
      rw [this, this]
    · obtain ⟨hvalid, hcap, hfix⟩ := lowerRanges_image c.toNat r hr hn
      rw [← he] at hvalid hcap hfix
      rw [hc]
      generalize lowerOf c.toNat lowerRanges = m at hvalid hcap hfix
      have hm : (Char.ofNat m).toNat = m := toNat_ofNat_of_valid m hvalid
      unfold toLowerRune
      rw [hm]
      by_cases hlt : m < 0x80
      · have hnot : ¬ ('A' ≤ Char.ofNat m ∧ Char.ofNat m ≤ 'Z') := by
          rintro ⟨h1, h2⟩
          have a : ('A' : Char).val.toNat ≤ (Char.ofNat m).val.toNat := h1
          have b : (Char.ofNat m).val.toNat ≤ ('Z' : Char).val.toNat := h2
          have a2 : 65 ≤ (Char.ofNat m).toNat := a
          have b2 : (Char.ofNat m).toNat ≤ 90 := b
          rw [hm] at a2 b2
          exact hcap ⟨a2, b2⟩
        rw [if_pos hlt, if_neg hnot]
      · rw [if_neg hlt, hfix]

theorem toLower_idempotent (s : String) : ToLower (ToLower s) = ToLower s := by
  unfold ToLower
  simp only [List.map_map]
  congr 1
  apply List.map_congr_left
  intro c _
  exact toLowerRune_idempotent c

/-! ## Lemmas on the identifier -/

theorem isHexLower_hexDigit (n : Nat) : isHexLower (hexDigit n) = true := by
  unfold hexDigit
  have h : n % 16 < 16 := Nat.mod_lt _ (by decide)
  generalize n % 16 = d at h
  interval_cases d <;> decide

theorem version_digit (b : Nat) : hexDigit ((b % 16 + 0x40) / 16) = '4' := by
  have : (b % 16 + 0x40) / 16 = 4 := by omega
  rw [this]
  decide

theorem variant_digit (b : Nat) :
    (hexDigit ((b % 64 + 0x80) / 16) == '8' || hexDigit ((b % 64 + 0x80) / 16) == '9' ||
      hexDigit ((b % 64 + 0x80) / 16) == 'a' ||
      hexDigit ((b % 64 + 0x80) / 16) == 'b') = true := by
  have h1 : 8 ≤ (b % 64 + 0x80) / 16 := by omega
  have h2 : (b % 64 + 0x80) / 16 ≤ 11 := by omega
  generalize (b % 64 + 0x80) / 16 = d at h1 h2
  interval_cases d <;> decide

/-- Whatever the random source delivers, the generated identifier is a
version-4 UUID string. -/
theorem isUUID4_uuidString (random : List Nat) :
    isUUID4 (uuidString (newUUID random)) = true := by
  simp [isUUID4, uuidString, newUUID, List.range, List.range.loop, hexByte, uuid4RuneOK,
    isHexLower_hexDigit, version_digit, variant_digit]

theorem ne_empty_of_isUUID4 (v : String) (h : isUUID4 v = true) : v ≠ "" := by
  rintro rfl
  revert h
  decide

theorem env_uuid_valid (env : Env) : isUUID4 env.uuid = true ∧ env.uuid ≠ "" :=
  ⟨isUUID4_uuidString env.random, ne_empty_of_isUUID4 _ (isUUID4_uuidString env.random)⟩

/-! ## Lemmas on the classifier and the store -/

theorem isValidSeverity_ne_empty (s : String) (h : AIService.isValidSeverity s = true) :
    s ≠ "" := by
  rintro rfl
  revert h
  decide

theorem isValidCategory_ne_empty (s : String) (h : AIService.isValidCategory s = true) :
    s ≠ "" := by
  rintro rfl
  revert h
  decide

theorem revalidate_severity_ne_empty (r : AIAnalysisResult) :
    (AIService.revalidate r).Severity ≠ "" := by
  unfold AIService.revalidate
  by_cases h : AIService.isValidSeverity r.Severity = true
  · have := isValidSeverity_ne_empty _ h
    by_cases h2 : AIService.isValidCategory r.Category = true <;> simp [h, h2, this]
  · by_cases h2 : AIService.isValidCategory r.Category = true <;> simp [h, h2]

theorem revalidate_category_ne_empty (r : AIAnalysisResult) :
    (AIService.revalidate r).Category ≠ "" := by
  unfold AIService.revalidate
  by_cases h2 : AIService.isValidCategory r.Category = true
  · have := isValidCategory_ne_empty _ h2
    by_cases h : AIService.isValidSeverity r.Severity = true <;> simp [h, h2, this]
  · by_cases h : AIService.isValidSeverity r.Severity = true <;> simp [h, h2]

/-- A classification that `AnalyzeIncident` returns has no empty component. -/
theorem analyzeIncident_ok_ne_empty (env : Env) (w : World) (title description : String)
    (r : AIAnalysisResult)
    (h : (AIService.AnalyzeIncident env w title description).2 = .ok r) :
    r.Severity ≠ "" ∧ r.Category ≠ "" := by
  unfold AIService.AnalyzeIncident at h
  by_cases hk : env.apiKey = ""
  · simp only [hk, if_true] at h
    cases h
    exact ⟨by decide, by decide⟩
  · simp only [hk, if_false] at h
    cases hc : env.chat (AIService.prompt title description) with
    | error e => rw [hc] at h; cases h
    | ok choices =>
      cases choices with
      | nil => rw [hc] at h; cases h
      | cons choice rest =>
        rw [hc] at h
        cases h
        exact ⟨revalidate_severity_ne_empty _, revalidate_category_ne_empty _⟩

theorem isValidSeverity_iff (s : String) :
    AIService.isValidSeverity s = true ↔ ToLower s ∈ ["low", "medium", "high"] := by
  simp [AIService.isValidSeverity]

theorem isValidCategory_iff (s : String) :
    AIService.isValidCategory s = true ↔
      ToLower s ∈ ["network", "software", "hardware", "security"] := by
  simp [AIService.isValidCategory]

/-- After the re-validation both values are members of their closed set up to
letter case. -/
theorem revalidate_lower_mem (r : AIAnalysisResult) :
    ToLower (AIService.revalidate r).Severity ∈ ["low", "medium", "high"] ∧
    ToLower (AIService.revalidate r).Category ∈
      ["network", "software", "hardware", "security"] := by
  unfold AIService.revalidate
  by_cases h1 : AIService.isValidSeverity r.Severity = true <;>
    by_cases h2 : AIService.isValidCategory r.Category = true <;>
    simp only [h1, h2, Bool.not_true, Bool.not_false, if_true, if_false,
      Bool.false_eq_true, Bool.not_eq_true] <;>
    refine ⟨?_, ?_⟩ <;>
    first
      | exact (isValidSeverity_iff _).mp h1
      | exact (isValidCategory_iff _).mp h2
      | decide

/-- A classification that `AnalyzeIncident` returns is, up to letter case, a
pair of members of the closed sets. -/
theorem analyzeIncident_ok_lower_mem (env : Env) (w : World) (title description : String)
    (r : AIAnalysisResult)
    (h : (AIService.AnalyzeIncident env w title description).2 = .ok r) :
    ToLower r.Severity ∈ ["low", "medium", "high"] ∧
    ToLower r.Category ∈ ["network", "software", "hardware", "security"] := by
  unfold AIService.AnalyzeIncident at h
  by_cases hk : env.apiKey = ""
  · simp only [hk, if_true] at h
    cases h
    exact ⟨by decide, by decide⟩
  · simp only [hk, if_false] at h
    cases hc : env.chat (AIService.prompt title description) with
    | error e => rw [hc] at h; cases h
    | ok choices =>
      cases choices with
      | nil => rw [hc] at h; cases h
      | cons choice rest =>
        rw [hc] at h
        cases h
        exact revalidate_lower_mem _

/-- The error of the store is the error of the database, whatever is stored. -/
theorem create_error (env : Env) (w : World) (incident : Incident) :
    (IncidentRepository.Create env w incident).2.2 = env.insertErr := by
  unfold IncidentRepository.Create
  cases env.insertErr <;> rfl

/-! ## Lemmas on the validator -/

theorem mapSet_of_not_mem (m : List (String × String)) (k v : String)
    (h : k ∉ m.map Prod.fst) : mapSet m k v = m ++ [(k, v)] := by
  induction m with
  | nil => rfl
  | cons a rest ih =>
    obtain ⟨k', v'⟩ := a
    simp only [List.map_cons, List.mem_cons, not_or] at h
    have hne : ¬ k' = k := fun hk => h.1 hk.symm
    simp only [mapSet, hne, if_false, ih h.2, List.cons_append]

theorem mem_mapSet (m : List (String × String)) (k v : String) (e : String × String)
    (h : e ∈ mapSet m k v) : e ∈ m ∨ e = (k, v) := by
  induction m with
  | nil => simpa [mapSet] using h
  | cons a rest ih =>
    obtain ⟨k', v'⟩ := a
    by_cases hk : k' = k
    · simp only [mapSet, hk, if_true, List.mem_cons] at h
      rcases h with h | h
      · exact Or.inr h
      · exact Or.inl (List.mem_cons_of_mem _ h)
    · simp only [mapSet, hk, if_false, List.mem_cons] at h
      rcases h with h | h
      · exact Or.inl (h ▸ List.mem_cons_self _ _)
      · rcases ih h with h' | h'
        · exact Or.inl (List.mem_cons_of_mem _ h')
        · exact Or.inr h'

/-- The map entry that `ValidateAndGetErrors` writes for one field error. -/
theorem foldl_mapSet_mem (key value : FieldError → String) (errs : List FieldError)
    (acc : List (String × String)) (e : String × String)
    (h : e ∈ errs.foldl (fun errors err => mapSet errors (key err) (value err)) acc) :
    e ∈ acc ∨ ∃ err ∈ errs, e = (key err, value err) := by
  induction errs generalizing acc with
  | nil => exact Or.inl h
  | cons err rest ih =>
    simp only [List.foldl_cons] at h
    rcases ih _ h with h' | ⟨err', hmem, heq⟩
    · rcases mem_mapSet _ _ _ _ h' with h'' | h''
      · exact Or.inl h''
      · exact Or.inr ⟨err, List.mem_cons_self _ _, h''⟩
    · exact Or.inr ⟨err', List.mem_cons_of_mem _ hmem, heq⟩

theorem foldl_mapSet_of_nodup (key value : FieldError → String) (errs : List FieldError)
    (acc : List (String × String))
    (h : (acc.map Prod.fst ++ errs.map key).Nodup) :
    errs.foldl (fun errors err => mapSet errors (key err) (value err)) acc
      = acc ++ errs.map (fun err => (key err, value err)) := by
  induction errs generalizing acc with
  | nil => simp
  | cons err rest ih =>
    simp only [List.foldl_cons, List.map_cons]
    have hk : key err ∉ acc.map Prod.fst := by
      intro hmem
      rw [List.nodup_append] at h
      exact h.2.2 hmem (by simp)
    rw [mapSet_of_not_mem _ _ _ hk, ih]
    · simp
    · simpa [List.map_append, List.append_assoc] using h

theorem validateField_name (f : Field) (e : FieldError) (h : validateField f = some e) :
    e.Field = f.Name := by
  unfold validateField at h
  cases hf : firstFailure f.Tags f.Value with
  | none => rw [hf] at h; cases h
  | some t => rw [hf] at h; cases h; rfl

theorem validateStruct_fields_sublist (s : List Field) :
    List.Sublist ((validateStruct s).map fun e => e.Field) (s.map fun f => f.Name) := by
  induction s with
  | nil => exact List.Sublist.slnil
  | cons f rest ih =>
    unfold validateStruct at ih ⊢
    cases hf : validateField f with
    | none =>
      simp only [List.filterMap_cons, hf, List.map_cons]
      exact List.Sublist.cons _ ih
    | some e =>
      simp only [List.filterMap_cons, hf, List.map_cons]
      rw [validateField_name f e hf]
      exact List.Sublist.cons₂ _ ih

/-- When the lower-cased field names are pairwise distinct, the map has one
entry per field error, in field order. -/
theorem validateAndGetErrors_of_nodup (s : List Field)
    (h : (s.map fun f => ToLower f.Name).Nodup) :
    ValidateAndGetErrors s =
      if validateStruct s = [] then none
      else some ((validateStruct s).map fun err =>
        (ToLower err.Field, errorMessage (ToLower err.Field) err.Tag err.Param)) := by
  have hsub := (validateStruct_fields_sublist s).map ToLower
  simp only [List.map_map] at hsub
  have hnd : ((validateStruct s).map fun err => ToLower err.Field).Nodup :=
    List.Nodup.sublist hsub h
  unfold ValidateAndGetErrors
  cases hv : validateStruct s with
  | nil => simp
  | cons e rest =>
    rw [hv] at hnd
    simp only [reduceCtorEq, if_false]
    rw [foldl_mapSet_of_nodup (fun err => ToLower err.Field)
      (fun err => errorMessage (ToLower err.Field) err.Tag err.Param) (e :: rest) []
      (by simpa using hnd)]
    simp

theorem incident_keys_nodup (i : Incident) :
    (i.fields.map fun f => ToLower f.Name).Nodup := by
  simp only [Incident.fields, List.map_cons, List.map_nil]
  decide

theorem string_eq_empty_iff (v : String) : v = "" ↔ v.data.length = 0 := by
  constructor
  · rintro rfl; rfl
  · intro h
    cases v with
    | mk d =>
      have : d = [] := List.length_eq_zero.mp h
      subst this
      rfl

theorem firstFailure_required (v : String) (n : Nat) :
    firstFailure [.required, .min 1, .max n] v =
      if v = "" then some .required
      else if v.data.length ≤ n then none else some (.max n) := by
  by_cases hv : v = ""
  · simp [firstFailure, Tag.holds, hv]
  · have hlen : 1 ≤ v.data.length := by
      have := mt (string_eq_empty_iff v).mpr hv
      omega
    have hl : v.length ≠ 0 := by
      have : v.length = v.data.length := rfl
      omega
    by_cases hn : v.data.length ≤ n <;> simp [firstFailure, Tag.holds, hv, hlen, hn, hl]

theorem firstFailure_oneof (v p : String) :
    firstFailure [.omitempty, .oneof p] v =
      if v = "" ∨ v ∈ oneofValues p then none else some (.oneof p) := by
  by_cases hv : v = ""
  · simp [firstFailure, hv]
  · by_cases hm : v ∈ oneofValues p
    · have : ((oneofValues p).any fun allowed => allowed == v) = true := by
        rw [List.any_eq_true]
        exact ⟨v, hm, by simp⟩
      simp [firstFailure, Tag.holds, hv, hm, this]
    · have : ((oneofValues p).any fun allowed => allowed == v) = false := by
        rw [Bool.eq_false_iff]
        intro h
        rw [List.any_eq_true] at h
        obtain ⟨a, ha, hav⟩ := h
        have : a = v := by simpa using hav
        exact hm (this ▸ ha)
      simp [firstFailure, Tag.holds, hv, hm, this]

theorem filterMap_cons_toList {α β : Type} (g : α → Option β) (a : α) (l : List α) :
    (a :: l).filterMap g = (g a).toList ++ l.filterMap g := by
  cases h : g a <;> simp [List.filterMap_cons, h]

theorem keys_required (n v : String) (m : Nat) :
    ((validateField ⟨n, v, [.required, .min 1, .max m]⟩).toList.map fun e => ToLower e.Field)
      = if 1 ≤ v.length ∧ v.length ≤ m then [] else [ToLower n] := by
  have hl : v.length = v.data.length := rfl
  unfold validateField
  simp only [firstFailure_required]
  by_cases hv : v = ""
  · have h0 : v.data.length = 0 := (string_eq_empty_iff v).mp hv
    have : ¬ (1 ≤ v.length ∧ v.length ≤ m) := by omega
    simp [hv, this]
  · have h0 : v.data.length ≠ 0 := mt (string_eq_empty_iff v).mpr hv
    by_cases hn : v.length ≤ m
    · have : 1 ≤ v.length ∧ v.length ≤ m := by omega
      simp [hv, hn, this]
    · have : ¬ (1 ≤ v.length ∧ v.length ≤ m) := by omega
      simp [hv, hn, this]

theorem keys_oneof (n v p : String) :
    ((validateField ⟨n, v, [.omitempty, .oneof p]⟩).toList.map fun e => ToLower e.Field)
      = if v = "" ∨ v ∈ oneofValues p then [] else [ToLower n] := by
  unfold validateField
  simp only [firstFailure_oneof]
  by_cases h : v = "" ∨ v ∈ oneofValues p <;> simp [h]

theorem validateStruct_incident_keys (i : Incident) (hid : i.ID = "") :
    ((validateStruct i.fields).map fun e => ToLower e.Field) = i.violatingKeys := by
  have hID : validateField ⟨"ID", i.ID, [.omitempty, .uuid4]⟩ = none := by
    simp [validateField, firstFailure, hid]
  have hs : oneofValues "open in_progress resolved closed"
      = ["open", "in_progress", "resolved", "closed"] := by decide
  have hp : oneofValues "low medium high critical" = ["low", "medium", "high", "critical"] := by
    decide
  have hsev : oneofValues "low medium high" = ["low", "medium", "high"] := by decide
  have hcat : oneofValues "network software hardware security"
      = ["network", "software", "hardware", "security"] := by decide
  have n1 : ToLower "Title" = "title" := by decide
  have n2 : ToLower "Description" = "description" := by decide
  have n3 : ToLower "Status" = "status" := by decide
  have n4 : ToLower "Priority" = "priority" := by decide
  have n5 : ToLower "AISeverity" = "aiseverity" := by decide
  have n6 : ToLower "AICategory" = "aicategory" := by decide
  unfold validateStruct Incident.fields Incident.violatingKeys
  simp only [filterMap_cons_toList, List.filterMap_nil, List.map_append, keys_required,
    keys_oneof, hID, hs, hp, hsev, hcat, n1, n2, n3, n4, n5, n6]
  simp only [Option.toList, List.map_nil, List.nil_append, List.append_nil, List.append_assoc]

/-- An incident field in error has its entry in the returned map. -/
theorem incident_error_entry (i : Incident) (f : Field) (e : FieldError)
    (hf : f ∈ i.fields) (he : validateField f = some e) :
    ∃ m, ValidateAndGetErrors i.fields = some m ∧
      (ToLower e.Field, errorMessage (ToLower e.Field) e.Tag e.Param) ∈ m := by
  have hmem : e ∈ validateStruct i.fields := by
    unfold validateStruct
    exact List.mem_filterMap.mpr ⟨f, hf, he⟩
  have hne : validateStruct i.fields ≠ [] := List.ne_nil_of_mem hmem
  rw [validateAndGetErrors_of_nodup i.fields (incident_keys_nodup i)]
  simp only [hne, if_false]
  exact ⟨_, rfl, List.mem_map.mpr ⟨e, hmem, rfl⟩⟩

theorem incident_empty_title_entry (i : Incident) (h : i.Title = "") :
    ∃ m, ValidateAndGetErrors i.fields = some m ∧ ("title", "title is required") ∈ m := by
  have := incident_error_entry i ⟨"Title", i.Title, [.required, .min 1, .max 200]⟩
    ⟨"Title", "required", ""⟩ (by simp [Incident.fields])
    (by simp [validateField, firstFailure_required, h, Tag.name, Tag.param])
  exact this

theorem incident_empty_description_entry (i : Incident) (h : i.Description = "") :
    ∃ m, ValidateAndGetErrors i.fields = some m ∧
      ("description", "description is required") ∈ m := by
  have := incident_error_entry i ⟨"Description", i.Description, [.required, .min 1, .max 1000]⟩
    ⟨"Description", "required", ""⟩ (by simp [Incident.fields])
    (by simp [validateField, firstFailure_required, h, Tag.name, Tag.param])
  exact this

theorem firstFailure_ne_omitempty (ts : List Tag) (v : String) :
    firstFailure ts v ≠ some .omitempty := by
  induction ts with
  | nil => simp [firstFailure]
  | cons t rest ih =>
    cases t <;> simp only [firstFailure] <;> split <;> simp_all

theorem analyzeIncident_logs (env : Env) (w : World) (title description : String) :
    w.trace.length < (AIService.AnalyzeIncident env w title description).1.trace.length := by
  unfold AIService.AnalyzeIncident
  by_cases hk : env.apiKey = ""
  · simp [hk, World.log]
  · simp only [hk, if_false]
    cases env.chat (AIService.prompt title description) with
    | error e => simp [World.log]
    | ok choices => cases choices <;> simp [World.log]

theorem create_logs (env : Env) (w : World) (incident : Incident) :
    w.trace.length < (IncidentRepository.Create env w incident).1.trace.length := by
  unfold IncidentRepository.Create
  cases env.insertErr <;> simp [World.log]

/-! ## The classifier's closed sets -/

/-- C3: in live mode, on the endpoint reply `upperCaseReply` (a JSON object
whose values differ from set members only in letter case), `AnalyzeIncident`
returns the result (HIGH, Network): the values pass the case-insensitive
re-validation unchanged, and neither is a member of its closed set. -/
theorem analyzeIncident_keeps_letter_case :
    liveEnv.apiKey ≠ "" ∧
    (AIService.AnalyzeIncident liveEnv emptyWorld "Router down" "Core router does not answer").2
      = .ok ⟨"HIGH", "Network"⟩ ∧
    "HIGH" ∉ ["low", "medium", "high"] ∧
    "Network" ∉ ["network", "software", "hardware", "security"] := by
  refine ⟨by decide, ?_, by decide, by decide⟩
  rfl

/-- C1: with the endpoint reply `upperCaseReply` and a store that accepts the
insert, `CreateIncident` returns an incident whose `ai_severity` is HIGH and
whose `ai_category` is Network, both outside the closed sets. -/
theorem createIncident_returns_out_of_set_values :
    ∃ created : Incident,
      (IncidentService.CreateIncident liveEnv emptyWorld sampleIncident).2 = (some created, none) ∧
      created.AISeverity = "HIGH" ∧ created.AICategory = "Network" ∧
      created.AISeverity ∉ ["low", "medium", "high"] ∧
      created.AICategory ∉ ["network", "software", "hardware", "security"] := by
  refine ⟨⟨"0b8f7a52-3c1d-4e6f-9a2b-5d7c8e9f0a1b", "Router down", "Core router does not answer",
    "open", "medium", "HIGH", "Network", 1700000000, 1700000000⟩, ?_, rfl, rfl, ?_, ?_⟩
  · rfl
  · decide
  · decide

/-! ## The pipeline -/

/-- C2: when `AnalyzeIncident` returns an error, `CreateIncident` stores the
candidate with its defaults filled and with (medium, software) as AI fields,
the store's create is called with exactly that incident, and the returned pair
is the store's outcome: the stored incident and no error, or no incident and
the database error; the classifier's error is not part of it. -/
theorem createIncident_absorbs_classifier_error (env : Env) (w w1 : World)
    (incident : Incident) (e : String)
    (h : AIService.AnalyzeIncident env w incident.Title incident.Description = (w1, .error e)) :
    let candidate : Incident :=
      { incident with
        Status := if incident.Status = "" then "open" else incident.Status
        Priority := if incident.Priority = "" then "medium" else incident.Priority
        AISeverity := "medium"
        AICategory := "software" }
    let stored := IncidentRepository.Create env w1 candidate
    IncidentService.CreateIncident env w incident
        = (stored.1, if stored.2.2 = none then some stored.2.1 else none, stored.2.2) ∧
      Event.create candidate ∈ (IncidentService.CreateIncident env w incident).1.trace ∧
      (IncidentService.CreateIncident env w incident).2.2 = env.insertErr := by
  intro candidate stored
  have hc : IncidentService.CreateIncident env w incident
      = (stored.1, if stored.2.2 = none then some stored.2.1 else none, stored.2.2) := by
    unfold IncidentService.CreateIncident
    by_cases hs : incident.Status = "" <;> by_cases hp : incident.Priority = "" <;>
      simp only [hs, hp, if_true, if_false, h] <;>
      simp only [stored, candidate, hs, hp, if_true, if_false] <;>
      unfold IncidentRepository.Create <;>
      cases env.insertErr <;> rfl
  refine ⟨hc, ?_, ?_⟩
  · rw [hc]
    simp only [stored]
    unfold IncidentRepository.Create
    cases env.insertErr <;> simp [World.log]
  · rw [hc]
    exact create_error env w1 candidate

/-- Witness of C2: the endpoint is unreachable, the incident is created. -/
theorem createIncident_absorbs_classifier_error_witness :
    (IncidentService.CreateIncident unreachableEnv emptyWorld sampleIncident).2.2 = none :=
  (createIncident_absorbs_classifier_error unreachableEnv emptyWorld
    (AIService.AnalyzeIncident unreachableEnv emptyWorld sampleIncident.Title
      sampleIncident.Description).1
    sampleIncident "OpenAI API error: connection refused" rfl).2.2

/-- C4: without an API key `AnalyzeIncident` returns (medium, software) and no
error for every title and description, adds no endpoint call to the trace, and
every incident that `CreateIncident` returns carries (medium, software). -/
theorem analyzeIncident_static_default (env : Env) (w : World) (hkey : env.apiKey = "") :
    (∀ title description : String,
      AIService.AnalyzeIncident env w title description
        = (w.log (.analyze title description), .ok ⟨"medium", "software"⟩) ∧
      ∀ p, Event.chat p ∈ (AIService.AnalyzeIncident env w title description).1.trace →
        Event.chat p ∈ w.trace) ∧
    ∀ incident created : Incident,
      (IncidentService.CreateIncident env w incident).2.1 = some created →
        created.AISeverity = "medium" ∧ created.AICategory = "software" := by
  have ha : ∀ title description : String,
      AIService.AnalyzeIncident env w title description
        = (w.log (.analyze title description), .ok ⟨"medium", "software"⟩) := by
    intro title description
    unfold AIService.AnalyzeIncident
    simp [hkey]
  refine ⟨fun title description => ⟨ha title description, ?_⟩, ?_⟩
  · intro p hp
    rw [ha] at hp
    simpa [World.log] using hp
  · intro incident created hcreated
    unfold IncidentService.CreateIncident at hcreated
    by_cases hs : incident.Status = "" <;> by_cases hp : incident.Priority = "" <;>
      simp only [hs, hp, if_true, if_false, ha] at hcreated <;>
      unfold IncidentRepository.Create at hcreated <;>
      cases hi : env.insertErr <;>
      simp only [hi] at hcreated <;>
      first
        | (cases hcreated; done)
        | (cases hcreated
           simp [applyColumnDefaults, Incident.BeforeCreate]
           split <;> simp)

/-- Witness of C4: in static-default mode the sample candidate is stored as
`offlineCreated`, which carries (medium, software). -/
theorem analyzeIncident_static_default_witness :
    (IncidentService.CreateIncident offlineEnv emptyWorld sampleIncident).2.1
      = some offlineCreated ∧
    offlineCreated.AISeverity = "medium" ∧ offlineCreated.AICategory = "software" :=
  ⟨rfl, (analyzeIncident_static_default offlineEnv emptyWorld rfl).2
    sampleIncident offlineCreated rfl⟩

/-- C5: `CreateIncident` gives the same outcome (world, incident, error) on two
candidates that differ only in the caller-supplied `ai_severity` and
`ai_category`; on success the incident returned is the row appended to the
table, and its AI fields are the classifier's pair, or (medium, software) when
the classifier fails. -/
theorem createIncident_ignores_supplied_ai_fields (env : Env) (w : World)
    (incident : Incident) (severity category : String) :
    IncidentService.CreateIncident env w
        { incident with AISeverity := severity, AICategory := category }
      = IncidentService.CreateIncident env w incident ∧
    ∀ created : Incident,
      (IncidentService.CreateIncident env w incident).2.1 = some created →
        (IncidentService.CreateIncident env w incident).1.rows = w.rows ++ [created] ∧
        (created.AISeverity, created.AICategory) =
          match (AIService.AnalyzeIncident env w incident.Title incident.Description).2 with
          | .ok aiResult => (aiResult.Severity, aiResult.Category)
          | .error _ => ("medium", "software") := by
  constructor
  · unfold IncidentService.CreateIncident
    by_cases hs : incident.Status = "" <;> by_cases hp : incident.Priority = "" <;>
      simp only [hs, hp, if_true, if_false]
  · intro created hcreated
    have hw : (AIService.AnalyzeIncident env w incident.Title incident.Description).1.rows
        = w.rows := by
      unfold AIService.AnalyzeIncident
      by_cases hk : env.apiKey = ""
      · simp [hk, World.log]
      · simp only [hk, if_false]
        cases env.chat (AIService.prompt incident.Title incident.Description) with
        | error e => rfl
        | ok choices => cases choices <;> rfl
    have hne := analyzeIncident_ok_ne_empty env w incident.Title incident.Description
    unfold IncidentService.CreateIncident at hcreated ⊢
    cases ha : AIService.AnalyzeIncident env w incident.Title incident.Description with
    | mk w1 analysis =>
      rw [ha] at hw hne
      simp only at hw hne
      cases analysis with
      | error e =>
        by_cases hs : incident.Status = "" <;> by_cases hp : incident.Priority = "" <;>
          simp only [hs, hp, if_true, if_false, ha] at hcreated ⊢ <;>
          unfold IncidentRepository.Create at hcreated ⊢ <;>
          cases hi : env.insertErr <;>
          simp only [hi] at hcreated ⊢ <;>
          first
            | (cases hcreated; done)
            | (cases hcreated
               simp [applyColumnDefaults, Incident.BeforeCreate, World.log, hw]
               split <;> simp)
      | ok r =>
        obtain ⟨h1, h2⟩ := hne r rfl
        by_cases hs : incident.Status = "" <;> by_cases hp : incident.Priority = "" <;>
          simp only [hs, hp, if_true, if_false, ha] at hcreated ⊢ <;>
          unfold IncidentRepository.Create at hcreated ⊢ <;>
          cases hi : env.insertErr <;>
          simp only [hi] at hcreated ⊢ <;>
          first
            | (cases hcreated; done)
            | (cases hcreated
               simp [applyColumnDefaults, Incident.BeforeCreate, World.log, hw, h1, h2]
               split <;> simp [h1, h2])

/-- Witness of C5: a caller who supplies (low, hardware) obtains the same
outcome as one who supplies nothing, and the row `offlineCreated` is stored. -/
theorem createIncident_ignores_supplied_ai_fields_witness :
    IncidentService.CreateIncident offlineEnv emptyWorld
        { sampleIncident with AISeverity := "low", AICategory := "hardware" }
      = IncidentService.CreateIncident offlineEnv emptyWorld sampleIncident ∧
    (IncidentService.CreateIncident offlineEnv emptyWorld sampleIncident).1.rows
      = emptyWorld.rows ++ [offlineCreated] :=
  ⟨(createIncident_ignores_supplied_ai_fields offlineEnv emptyWorld sampleIncident
      "low" "hardware").1,
   ((createIncident_ignores_supplied_ai_fields offlineEnv emptyWorld sampleIncident
      "low" "hardware").2 offlineCreated rfl).1⟩

/-- C6: when the store's create succeeds, `CreateIncident` returns an incident
with status open if none was supplied and the supplied status otherwise,
priority medium if none was supplied and the supplied priority otherwise, and
the supplied title and description; a candidate with the defaults already
filled gives the same outcome as the candidate with both fields empty. -/
theorem createIncident_fills_defaults (env : Env) (w : World) (incident : Incident)
    (hstore : env.insertErr = none) :
    (∃ created : Incident,
      (IncidentService.CreateIncident env w incident).2 = (some created, none) ∧
      created.Status = (if incident.Status = "" then "open" else incident.Status) ∧
      created.Priority = (if incident.Priority = "" then "medium" else incident.Priority) ∧
      created.Title = incident.Title ∧
      created.Description = incident.Description) ∧
    IncidentService.CreateIncident env w { incident with Status := "open", Priority := "medium" }
      = IncidentService.CreateIncident env w { incident with Status := "", Priority := "" } := by
  constructor
  · unfold IncidentService.CreateIncident
    cases ha : AIService.AnalyzeIncident env w incident.Title incident.Description with
    | mk w1 analysis =>
      by_cases hs : incident.Status = "" <;> by_cases hp : incident.Priority = "" <;>
        simp only [hs, hp, if_true, if_false, ha] <;>
        unfold IncidentRepository.Create <;>
        simp only [hstore] <;>
        refine ⟨_, rfl, ?_⟩ <;>
        cases analysis <;>
        simp [applyColumnDefaults, Incident.BeforeCreate, hs, hp] <;>
        (split <;> simp [hs, hp])
  · unfold IncidentService.CreateIncident
    simp

/-- Witness of C6: the sample candidate has neither status nor priority. -/
theorem createIncident_fills_defaults_witness :
    ∃ created : Incident,
      (IncidentService.CreateIncident liveEnv emptyWorld sampleIncident).2 = (some created, none) ∧
      created.Status = (if sampleIncident.Status = "" then "open" else sampleIncident.Status) ∧
      created.Priority =
        (if sampleIncident.Priority = "" then "medium" else sampleIncident.Priority) ∧
      created.Title = sampleIncident.Title ∧
      created.Description = sampleIncident.Description :=
  (createIncident_fills_defaults liveEnv emptyWorld sampleIncident rfl).1

/-- C7: if the store's create returns an error, `CreateIncident` returns no
incident together with exactly that error; and it returns an incident with a
nil error if and only if the store's create succeeded. The error of the
store's create is the error of the database, whatever incident is stored. -/
theorem createIncident_store_error (env : Env) (w : World) (incident : Incident) :
    (∀ (w1 : World) (candidate : Incident),
      (IncidentRepository.Create env w1 candidate).2.2 = env.insertErr) ∧
    (∀ e : String, env.insertErr = some e →
      (IncidentService.CreateIncident env w incident).2 = (none, some e)) ∧
    (((IncidentService.CreateIncident env w incident).2.1 ≠ none ∧
        (IncidentService.CreateIncident env w incident).2.2 = none) ↔
      env.insertErr = none) := by
  have hsome : ∀ e : String, env.insertErr = some e →
      (IncidentService.CreateIncident env w incident).2 = (none, some e) := by
    intro e he
    unfold IncidentService.CreateIncident
    cases ha : AIService.AnalyzeIncident env w incident.Title incident.Description with
    | mk w1 analysis =>
      by_cases hs : incident.Status = "" <;> by_cases hp : incident.Priority = "" <;>
        simp only [hs, hp, if_true, if_false, ha] <;>
        unfold IncidentRepository.Create <;>
        simp only [he]
  have hnone : env.insertErr = none →
      ∃ created : Incident,
        (IncidentService.CreateIncident env w incident).2 = (some created, none) := by
    intro he
    unfold IncidentService.CreateIncident
    cases ha : AIService.AnalyzeIncident env w incident.Title incident.Description with
    | mk w1 analysis =>
      by_cases hs : incident.Status = "" <;> by_cases hp : incident.Priority = "" <;>
        simp only [hs, hp, if_true, if_false, ha] <;>
        unfold IncidentRepository.Create <;>
        simp only [he] <;>
        exact ⟨_, rfl⟩
  refine ⟨fun w1 candidate => create_error env w1 candidate, hsome, ?_⟩
  constructor
  · rintro ⟨h1, h2⟩
    cases he : env.insertErr with
    | none => rfl
    | some e =>
      rw [hsome e he] at h2
      cases h2
  · intro he
    obtain ⟨created, hc⟩ := hnone he
    rw [hc]
    exact ⟨by simp, rfl⟩

/-- Witness of C7: the database rejects the insert. -/
theorem createIncident_store_error_witness :
    (IncidentService.CreateIncident brokenStoreEnv emptyWorld sampleIncident).2
      = (none, some "database is locked") :=
  (createIncident_store_error brokenStoreEnv emptyWorld sampleIncident).2.1
    "database is locked" rfl

/-! ## The API boundary and the validator -/

/-- C8: for a request whose body parses but whose title or description is
empty, the create handler answers 400 with label "Validation failed" and a
details mapping that has the key title when the title is empty and the key
description when the description is empty; the world, and with it the trace of
calls, is left as it was, whereas a call of the classifier or of the store
always adds to the trace. -/
theorem createHandler_rejects_empty_fields (env : Env) (w : World) (incident : Incident)
    (h : incident.Title = "" ∨ incident.Description = "") :
    (∃ details : List (String × String),
      IncidentHandler.CreateIncident env w (.ok incident)
        = (w, ⟨400, .error "Validation failed" (.fields details)⟩) ∧
      (incident.Title = "" → "title" ∈ details.map Prod.fst) ∧
      (incident.Description = "" → "description" ∈ details.map Prod.fst)) ∧
    (∀ title description : String,
      w.trace.length < (AIService.AnalyzeIncident env w title description).1.trace.length) ∧
    (∀ candidate : Incident,
      w.trace.length < (IncidentRepository.Create env w candidate).1.trace.length) := by
  refine ⟨?_, analyzeIncident_logs env w, create_logs env w⟩
  have hsome : ∃ m, ValidateAndGetErrors incident.fields = some m := by
    rcases h with h | h
    · obtain ⟨m, hm, _⟩ := incident_empty_title_entry incident h
      exact ⟨m, hm⟩
    · obtain ⟨m, hm, _⟩ := incident_empty_description_entry incident h
      exact ⟨m, hm⟩
  obtain ⟨m, hm⟩ := hsome
  refine ⟨m, ?_, ?_, ?_⟩
  · unfold IncidentHandler.CreateIncident
    simp only [hm]
  · intro ht
    obtain ⟨m', hm', hmem⟩ := incident_empty_title_entry incident ht
    rw [hm] at hm'
    cases hm'
    exact List.mem_map.mpr ⟨_, hmem, rfl⟩
  · intro hd
    obtain ⟨m', hm', hmem⟩ := incident_empty_description_entry incident hd
    rw [hm] at hm'
    cases hm'
    exact List.mem_map.mpr ⟨_, hmem, rfl⟩

/-- Witness of C8: a request without a title, in live mode. -/
theorem createHandler_rejects_empty_fields_witness :
    ∃ details : List (String × String),
      IncidentHandler.CreateIncident liveEnv emptyWorld (.ok untitledIncident)
        = (emptyWorld, ⟨400, .error "Validation failed" (.fields details)⟩) ∧
      "title" ∈ details.map Prod.fst :=
  match (createHandler_rejects_empty_fields liveEnv emptyWorld untitledIncident
    (Or.inl rfl)).1 with
  | ⟨details, hresp, htitle, _⟩ => ⟨details, hresp, htitle rfl⟩

/-- C9: for an incident with an empty id, `ValidateAndGetErrors` returns nil
exactly when the title has 1 to 200 characters, the description has 1 to 1000
characters, and status, priority, ai_severity and ai_category are each empty
or a member of their closed set; otherwise it returns a non-empty map with
exactly one entry for each violating field, in field order. -/
theorem validateAndGetErrors_incident_contract (i : Incident) (hid : i.ID = "") :
    (ValidateAndGetErrors i.fields = none ↔
      (1 ≤ i.Title.length ∧ i.Title.length ≤ 200) ∧
      (1 ≤ i.Description.length ∧ i.Description.length ≤ 1000) ∧
      (i.Status = "" ∨ i.Status ∈ ["open", "in_progress", "resolved", "closed"]) ∧
      (i.Priority = "" ∨ i.Priority ∈ ["low", "medium", "high", "critical"]) ∧
      (i.AISeverity = "" ∨ i.AISeverity ∈ ["low", "medium", "high"]) ∧
      (i.AICategory = "" ∨ i.AICategory ∈ ["network", "software", "hardware", "security"])) ∧
    (ValidateAndGetErrors i.fields ≠ none →
      ∃ m : List (String × String),
        ValidateAndGetErrors i.fields = some m ∧ m ≠ [] ∧
        m.map Prod.fst = i.violatingKeys ∧ (m.map Prod.fst).Nodup) := by
  have hkeys := validateStruct_incident_keys i hid
  have hnd : ((validateStruct i.fields).map fun e => ToLower e.Field).Nodup := by
    have hsub := (validateStruct_fields_sublist i.fields).map ToLower
    simp only [List.map_map] at hsub
    exact List.Nodup.sublist hsub (incident_keys_nodup i)
  have hres := validateAndGetErrors_of_nodup i.fields (incident_keys_nodup i)
  have hnil : validateStruct i.fields = [] ↔ i.violatingKeys = [] := by
    rw [← hkeys]
    simp
  constructor
  · rw [hres]
    have : (if validateStruct i.fields = [] then none
        else some ((validateStruct i.fields).map fun err =>
          (ToLower err.Field, errorMessage (ToLower err.Field) err.Tag err.Param))) = none
        ↔ validateStruct i.fields = [] := by
      by_cases hv : validateStruct i.fields = [] <;> simp [hv]
    rw [this, hnil]
    simp only [Incident.violatingKeys, List.append_eq_nil, ite_eq_left_iff,
      reduceCtorEq, imp_false, not_not, and_assoc]
  · intro hne
    rw [hres] at hne ⊢
    by_cases hv : validateStruct i.fields = []
    · simp [hv] at hne
    · simp only [hv, if_false]
      refine ⟨_, rfl, ?_, ?_, ?_⟩
      · simpa using hv
      · rw [← hkeys]
        simp [List.map_map, Function.comp_def]
      · rw [List.map_map]
        exact hnd

/-- Witness of C9: the sample candidate carries no id and passes, so the
result is nil; without its title the result is a map whose only key is title. -/
theorem validateAndGetErrors_incident_contract_witness :
    ValidateAndGetErrors sampleIncident.fields = none ∧
    ∃ m : List (String × String),
      ValidateAndGetErrors untitledIncident.fields = some m ∧ m ≠ [] ∧
      m.map Prod.fst = untitledIncident.violatingKeys ∧ (m.map Prod.fst).Nodup :=
  ⟨(validateAndGetErrors_incident_contract sampleIncident rfl).1.mpr (by decide),
   (validateAndGetErrors_incident_contract untitledIncident rfl).2 (by decide)⟩

/-- C10: every entry of the map returned by `ValidateAndGetErrors` comes from a
field whose first failing rule determines the message: with f the lower-cased
field name, "f is required" for `required`, "f must be at least N characters"
and "f must be at most N characters" for `min` and `max` with parameter N,
"f must be one of: " followed by the allowed set for `oneof`, and
"f must be a valid UUID" for `uuid4`. An incident with an empty title has the
entry title -> "title is required", and the struct of the message test yields
the three entries the test looks for. -/
theorem validateAndGetErrors_messages :
    (∀ (s : List Field) (m : List (String × String)) (k msg : String),
      ValidateAndGetErrors s = some m → (k, msg) ∈ m →
      ∃ f ∈ s, ∃ t : Tag, firstFailure f.Tags f.Value = some t ∧ k = ToLower f.Name ∧
        msg = match t with
          | .required => k ++ " is required"
          | .min n => k ++ " must be at least " ++ Nat.repr n ++ " characters"
          | .max n => k ++ " must be at most " ++ Nat.repr n ++ " characters"
          | .oneof param => k ++ " must be one of: " ++ param
          | .uuid4 => k ++ " must be a valid UUID"
          | .omitempty => k ++ " failed validation: omitempty") ∧
    (∀ i : Incident, i.Title = "" →
      ∃ m, ValidateAndGetErrors i.fields = some m ∧ ("title", "title is required") ∈ m) ∧
    ValidateAndGetErrors messageTestStruct = some
      [ ("title", "title is required"),
        ("description", "description is required"),
        ("status", "status must be one of: open in_progress resolved closed") ] := by
  refine ⟨?_, incident_empty_title_entry, by decide⟩
  intro s m k msg hm hmem
  unfold ValidateAndGetErrors at hm
  have hfold : (k, msg) ∈ (validateStruct s).foldl
      (fun errors err =>
        mapSet errors (ToLower err.Field) (errorMessage (ToLower err.Field) err.Tag err.Param))
      [] := by
    cases hv : validateStruct s with
    | nil => rw [hv] at hm; cases hm
    | cons e rest =>
      rw [hv] at hm
      simp only [Option.some.injEq] at hm
      rw [hm]
      exact hmem
  rcases foldl_mapSet_mem (fun err => ToLower err.Field)
      (fun err => errorMessage (ToLower err.Field) err.Tag err.Param) _ _ _ hfold with h | h
  · cases h
  · obtain ⟨err, herr, heq⟩ := h
    unfold validateStruct at herr
    obtain ⟨f, hf, hfe⟩ := List.mem_filterMap.mp herr
    unfold validateField at hfe
    cases ht : firstFailure f.Tags f.Value with
    | none => rw [ht] at hfe; cases hfe
    | some t =>
      rw [ht] at hfe
      simp only [Option.some.injEq] at hfe
      subst hfe
      simp only [Prod.mk.injEq] at heq
      obtain ⟨hk, hmsg⟩ := heq
      refine ⟨f, hf, t, ht, hk, ?_⟩
      rw [hmsg, ← hk]
      cases t <;>
        first
          | exact absurd ht (firstFailure_ne_omitempty _ _)
          | simp [errorMessage, Tag.name, Tag.param]

/-- Witness of C10: the entry of the test struct's status field. -/
theorem validateAndGetErrors_messages_witness :
    ∃ f ∈ messageTestStruct, ∃ t : Tag,
      firstFailure f.Tags f.Value = some t ∧ "status" = ToLower f.Name ∧
      "status must be one of: open in_progress resolved closed" = match t with
        | .required => "status" ++ " is required"
        | .min n => "status" ++ " must be at least " ++ Nat.repr n ++ " characters"
        | .max n => "status" ++ " must be at most " ++ Nat.repr n ++ " characters"
        | .oneof param => "status" ++ " must be one of: " ++ param
        | .uuid4 => "status" ++ " must be a valid UUID"
        | .omitempty => "status" ++ " failed validation: omitempty" :=
  validateAndGetErrors_messages.1 messageTestStruct
    [ ("title", "title is required"),
      ("description", "description is required"),
      ("status", "status must be one of: open in_progress resolved closed") ]
    "status" "status must be one of: open in_progress resolved closed"
    (by decide) (by decide)

/-! ## Lemmas on substrings and the textual scan -/

theorem startsWith_iff (s p : List Char) : startsWith s p = true ↔ p <+: s := by
  induction p generalizing s with
  | nil => simp [startsWith]
  | cons a rest ih =>
    cases s with
    | nil => simp [startsWith]
    | cons c cs =>
      simp only [startsWith, Bool.and_eq_true, beq_iff_eq, ih]
      constructor
      · rintro ⟨rfl, h⟩
        exact (List.prefix_cons_inj c).mpr h
      · intro h
        have hh := List.cons_prefix_cons.mp h
        exact ⟨hh.1.symm, hh.2⟩

theorem containsChars_iff (s sub : List Char) : containsChars s sub = true ↔ sub <:+: s := by
  induction s with
  | nil =>
    simp only [containsChars, startsWith_iff]
    constructor
    · exact List.IsPrefix.isInfix
    · intro h
      have := List.eq_nil_of_infix_nil h
      subst this
      exact List.nil_prefix
  | cons c cs ih =>
    simp only [containsChars, Bool.or_eq_true, startsWith_iff, ih]
    exact List.infix_cons_iff.symm

/-- A text that contains a string contains every block of that string. -/
theorem contains_of_block (t long short : String)
    (hblock : containsChars long.data short.data = true)
    (h : Contains t long = true) : Contains t short = true := by
  unfold Contains at h ⊢
  rw [containsChars_iff] at hblock h ⊢
  exact List.IsInfix.trans hblock h

theorem or_quoted (t long short : String)
    (hblock : containsChars long.data short.data = true) :
    (Contains t long = true ∨ Contains t short = true) ↔ Contains t short = true :=
  or_iff_right_of_imp (contains_of_block t long short hblock)

/-- The textual scan, with the tests for the quoted words absorbed by the
tests for the words themselves. -/
theorem extractValuesFromText_eq (text : String) :
    AIService.extractValuesFromText text =
      ⟨if Contains (ToLower text) "severity" then
          (if Contains (ToLower text) "low" then "low"
           else if Contains (ToLower text) "high" then "high" else "medium")
        else "medium",
       if Contains (ToLower text) "category" then
          (if Contains (ToLower text) "network" then "network"
           else if Contains (ToLower text) "hardware" then "hardware"
           else if Contains (ToLower text) "security" then "security" else "software")
        else
          (if Contains (ToLower text) "hardware" then "hardware"
           else if Contains (ToLower text) "network" then "network"
           else if Contains (ToLower text) "security" then "security" else "software")⟩ := by
  unfold AIService.extractValuesFromText
  simp only [or_quoted (ToLower text) "\"severity\"" "severity" (by decide),
    or_quoted (ToLower text) "\"low\"" "low" (by decide),
    or_quoted (ToLower text) "\"high\"" "high" (by decide),
    or_quoted (ToLower text) "\"category\"" "category" (by decide),
    or_quoted (ToLower text) "\"network\"" "network" (by decide),
    or_quoted (ToLower text) "\"hardware\"" "hardware" (by decide),
    or_quoted (ToLower text) "\"security\"" "security" (by decide)]
  split_ifs <;> rfl

/-! ## The textual scan -/

/-- C15: when the lower-cased text does not contain "category", the category
returned by `extractValuesFromText` is hardware if the text contains
"hardware", else network if it contains "network", else security if it
contains "security", else software. -/
theorem extractValuesFromText_category_without_keyword (text : String)
    (h : Contains (ToLower text) "category" = false) :
    (AIService.extractValuesFromText text).Category =
      if Contains (ToLower text) "hardware" then "hardware"
      else if Contains (ToLower text) "network" then "network"
      else if Contains (ToLower text) "security" then "security"
      else "software" := by
  rw [extractValuesFromText_eq]
  simp [h]

/-- Witness of C15: "This is a high severity hardware issue" gives hardware,
and a text that spells network with the Kelvin sign U+212A gives network. -/
theorem extractValuesFromText_category_without_keyword_witness :
    (AIService.extractValuesFromText "This is a high severity hardware issue").Category
      = "hardware" ∧
    (AIService.extractValuesFromText "networ\u212A").Category = "network" :=
  ⟨(extractValuesFromText_category_without_keyword "This is a high severity hardware issue"
      (by decide)).trans (by decide),
   (extractValuesFromText_category_without_keyword "networ\u212A" (by decide)).trans
      (by decide)⟩

/-- Counterexample to C16: in `highBeforeLowText` the word high occurs at
position 10 and the word low at position 20, so the earliest keyword is high,
yet `extractValuesFromText` returns low. -/
theorem extractValuesFromText_severity_not_textual_order :
    Contains (ToLower highBeforeLowText) "severity" = true ∧
    indexChars (ToLower highBeforeLowText).data "high".data = some 10 ∧
    indexChars (ToLower highBeforeLowText).data "low".data = some 20 ∧
    earliestKeyword (ToLower highBeforeLowText) ["low", "high"] "medium" = "high" ∧
    (AIService.extractValuesFromText highBeforeLowText).Severity = "low" := by
  decide

/-- C16 as amended: when the lower-cased text contains "severity", the severity
returned by `extractValuesFromText` is low if the text contains "low", else
high if it contains "high", else medium, whatever the order of the words. -/
theorem extractValuesFromText_severity_priority (text : String)
    (h : Contains (ToLower text) "severity" = true) :
    (AIService.extractValuesFromText text).Severity =
      if Contains (ToLower text) "low" then "low"
      else if Contains (ToLower text) "high" then "high"
      else "medium" := by
  rw [extractValuesFromText_eq]
  simp [h]

/-- Witness of C16 as amended: a text with high before low yields low, and a
text that spells high with the dotted capital U+0130 yields high. -/
theorem extractValuesFromText_severity_priority_witness :
    (AIService.extractValuesFromText highBeforeLowText).Severity = "low" ∧
    (AIService.extractValuesFromText "severity H\u0130GH").Severity = "high" :=
  ⟨(extractValuesFromText_severity_priority highBeforeLowText (by decide)).trans (by decide),
   (extractValuesFromText_severity_priority "severity H\u0130GH" (by decide)).trans
      (by decide)⟩

/-- Counterexample to C17: in `securityBeforeNetworkText` the word security
occurs at position 10 and the word network at position 24, so the earliest
keyword is security, yet `extractValuesFromText` returns network. -/
theorem extractValuesFromText_category_not_textual_order :
    Contains (ToLower securityBeforeNetworkText) "category" = true ∧
    indexChars (ToLower securityBeforeNetworkText).data "security".data = some 10 ∧
    indexChars (ToLower securityBeforeNetworkText).data "network".data = some 24 ∧
    earliestKeyword (ToLower securityBeforeNetworkText) ["network", "hardware", "security"]
      "software" = "security" ∧
    (AIService.extractValuesFromText securityBeforeNetworkText).Category = "network" := by
  decide

/-- C17 as amended: when the lower-cased text contains "category", the category
returned by `extractValuesFromText` is network if the text contains "network",
else hardware if it contains "hardware", else security if it contains
"security", else software, whatever the order of the words. -/
theorem extractValuesFromText_category_priority (text : String)
    (h : Contains (ToLower text) "category" = true) :
    (AIService.extractValuesFromText text).Category =
      if Contains (ToLower text) "network" then "network"
      else if Contains (ToLower text) "hardware" then "hardware"
      else if Contains (ToLower text) "security" then "security"
      else "software" := by
  rw [extractValuesFromText_eq]
  simp [h]

/-- Witness of C17 as amended: a text with security before network yields
network, and so does a text with hardware before a network spelled with the
Kelvin sign U+212A. -/
theorem extractValuesFromText_category_priority_witness :
    (AIService.extractValuesFromText securityBeforeNetworkText).Category = "network" ∧
    (AIService.extractValuesFromText "category hardware NETWOR\u212A").Category
      = "network" :=
  ⟨(extractValuesFromText_category_priority securityBeforeNetworkText (by decide)).trans
      (by decide),
   (extractValuesFromText_category_priority "category hardware NETWOR\u212A"
      (by decide)).trans (by decide)⟩

/-- C18: with t the lower-cased text, if t mentions "severity" and contains
exactly one of low and high, that keyword is the severity; if t mentions
"category" and contains exactly one of network, hardware and security, that
keyword is the category; and a text with none of the five keywords yields
(medium, software). The three texts of the unit test give (low, network),
(medium, software) and (high, security). -/
theorem extractValuesFromText_single_keyword :
    (∀ text : String,
      (Contains (ToLower text) "severity" = true →
        (Contains (ToLower text) "low" = true → Contains (ToLower text) "high" = false →
          (AIService.extractValuesFromText text).Severity = "low") ∧
        (Contains (ToLower text) "high" = true → Contains (ToLower text) "low" = false →
          (AIService.extractValuesFromText text).Severity = "high")) ∧
      (Contains (ToLower text) "category" = true →
        (Contains (ToLower text) "network" = true → Contains (ToLower text) "hardware" = false →
          Contains (ToLower text) "security" = false →
          (AIService.extractValuesFromText text).Category = "network") ∧
        (Contains (ToLower text) "hardware" = true → Contains (ToLower text) "network" = false →
          Contains (ToLower text) "security" = false →
          (AIService.extractValuesFromText text).Category = "hardware") ∧
        (Contains (ToLower text) "security" = true → Contains (ToLower text) "network" = false →
          Contains (ToLower text) "hardware" = false →
          (AIService.extractValuesFromText text).Category = "security")) ∧
      (Contains (ToLower text) "low" = false → Contains (ToLower text) "high" = false →
        Contains (ToLower text) "network" = false → Contains (ToLower text) "hardware" = false →
        Contains (ToLower text) "security" = false →
        AIService.extractValuesFromText text = ⟨"medium", "software"⟩)) ∧
    AIService.extractValuesFromText "The severity is low and the category is network"
      = ⟨"low", "network"⟩ ∧
    AIService.extractValuesFromText "Random text without severity or category"
      = ⟨"medium", "software"⟩ ∧
    AIService.extractValuesFromText "\x7b\"severity\": \"high\", \"category\": \"security\"\x7d"
      = ⟨"high", "security"⟩ := by
  refine ⟨fun text => ⟨fun hs => ⟨?_, ?_⟩, fun hc => ⟨?_, ?_, ?_⟩, ?_⟩,
    by decide, by decide, by decide⟩
  · intro h1 h2
    rw [extractValuesFromText_eq]; simp [hs, h1]
  · intro h1 h2
    rw [extractValuesFromText_eq]; simp [hs, h1, h2]
  · intro h1 h2 h3
    rw [extractValuesFromText_eq]; simp [hc, h1]
  · intro h1 h2 h3
    rw [extractValuesFromText_eq]; simp [hc, h1, h2]
  · intro h1 h2 h3
    rw [extractValuesFromText_eq]; simp [hc, h1, h2, h3]
  · intro h1 h2 h3 h4 h5
    rw [extractValuesFromText_eq]; simp [h1, h2, h3, h4, h5]

/-- Witness of C18: the text of the unit test mentions severity and category
and contains only the keywords low and network. -/
theorem extractValuesFromText_single_keyword_witness :
    (AIService.extractValuesFromText
        "The severity is low and the category is network").Severity = "low" ∧
    (AIService.extractValuesFromText
        "The severity is low and the category is network").Category = "network" ∧
    AIService.extractValuesFromText "No keyword here" = ⟨"medium", "software"⟩ ∧
    (AIService.extractValuesFromText "severity H\u0130GH").Severity = "high" ∧
    (AIService.extractValuesFromText "category NETWOR\u212A").Category = "network" :=
  ⟨((extractValuesFromText_single_keyword.1
      "The severity is low and the category is network").1 (by decide)).1
      (by decide) (by decide),
   ((extractValuesFromText_single_keyword.1
      "The severity is low and the category is network").2.1 (by decide)).1
      (by decide) (by decide) (by decide),
   (extractValuesFromText_single_keyword.1 "No keyword here").2.2
      (by decide) (by decide) (by decide) (by decide) (by decide),
   ((extractValuesFromText_single_keyword.1 "severity H\u0130GH").1 (by decide)).2
      (by decide) (by decide),
   ((extractValuesFromText_single_keyword.1 "category NETWOR\u212A").2.1 (by decide)).1
      (by decide) (by decide) (by decide)⟩

theorem upper_letter_cases (c : Char) (h1 : 'A' ≤ c) (h2 : c ≤ 'Z') :
    ∃ n, 65 ≤ n ∧ n ≤ 90 ∧ c = Char.ofNat n := by
  have a : ('A' : Char).val.toNat ≤ c.val.toNat := h1
  have b : c.val.toNat ≤ ('Z' : Char).val.toNat := h2
  exact ⟨c.toNat, a, b, (Char.ofNat_toNat c).symm⟩

theorem lower_letter_cases (c : Char) (h1 : 'a' ≤ c) (h2 : c ≤ 'z') :
    ∃ n, 97 ≤ n ∧ n ≤ 122 ∧ c = Char.ofNat n := by
  have a : ('a' : Char).val.toNat ≤ c.val.toNat := h1
  have b : c.val.toNat ≤ ('z' : Char).val.toNat := h2
  exact ⟨c.toNat, a, b, (Char.ofNat_toNat c).symm⟩

theorem toLowerRune_toLowerRune_upper (c : Char) (h1 : 'A' ≤ c) (h2 : c ≤ 'Z') :
    toLowerRune (toLowerRune c) = toLowerRune c := by
  obtain ⟨n, hn1, hn2, rfl⟩ := upper_letter_cases c h1 h2
  interval_cases n <;> decide

theorem toLowerRune_toUpperRune_lower (c : Char) (h1 : 'a' ≤ c) (h2 : c ≤ 'z') :
    toLowerRune (toUpperRune c) = toLowerRune c := by
  obtain ⟨n, hn1, hn2, rfl⟩ := lower_letter_cases c h1 h2
  interval_cases n <;> decide

theorem sameLetter_toLowerRune (c d : Char) (h : sameLetter c d = true) :
    toLowerRune d = toLowerRune c := by
  unfold sameLetter at h
  simp only [Bool.or_eq_true, Bool.and_eq_true, beq_iff_eq, decide_eq_true_eq] at h
  rcases h with (h | ⟨⟨h1, h2⟩, h3⟩) | ⟨⟨h1, h2⟩, h3⟩
  · rw [h]
  · rw [h3]
    exact toLowerRune_toLowerRune_upper c h1 h2
  · rw [h3]
    exact toLowerRune_toUpperRune_lower c h1 h2

theorem caseVariantChars_map (s t : List Char) (h : caseVariantChars s t = true) :
    t.map toLowerRune = s.map toLowerRune := by
  induction s generalizing t with
  | nil =>
    cases t with
    | nil => rfl
    | cons d ds => simp [caseVariantChars] at h
  | cons c cs ih =>
    cases t with
    | nil => simp [caseVariantChars] at h
    | cons d ds =>
      simp only [caseVariantChars, Bool.and_eq_true] at h
      simp only [List.map_cons, sameLetter_toLowerRune c d h.1, ih ds h.2]

theorem caseVariant_toLower (s t : String) (h : caseVariant s t = true) :
    ToLower t = ToLower s := by
  unfold ToLower
  rw [caseVariantChars_map s.data t.data h]

theorem toLowerRune_of_ascii_upper (c : Char) (h : 'A' ≤ c ∧ c ≤ 'Z') :
    toLowerRune c = asciiLowerRune c := by
  have b : c.toNat ≤ 90 := h.2
  have hlt : c.toNat < 0x80 := by omega
  simp [toLowerRune, asciiLowerRune, hlt, h]

theorem sameLetter_lower (c : Char) : sameLetter c (asciiLowerRune c) = true := by
  unfold sameLetter
  by_cases h : 'A' ≤ c ∧ c ≤ 'Z'
  · rw [← toLowerRune_of_ascii_upper c h]
    simp [h.1, h.2]
  · have : asciiLowerRune c = c := by simp [asciiLowerRune, h]
    simp [this]

theorem sameLetter_upper (c : Char) : sameLetter c (toUpperRune c) = true := by
  unfold sameLetter
  by_cases h : 'a' ≤ c ∧ c ≤ 'z'
  · simp [h.1, h.2]
  · have : toUpperRune c = c := by simp [toUpperRune, h]
    simp [this]

theorem caseVariantChars_mapped (f : Char → Char) (hf : ∀ c, sameLetter c (f c) = true)
    (s : List Char) : caseVariantChars s (s.map f) = true := by
  induction s with
  | nil => rfl
  | cons c cs ih => simp [caseVariantChars, hf c, ih]

theorem extractValuesFromText_congr (s t : String) (h : ToLower t = ToLower s) :
    AIService.extractValuesFromText t = AIService.extractValuesFromText s := by
  rw [extractValuesFromText_eq, extractValuesFromText_eq, h]

/-- C19: `extractValuesFromText` returns the same pair for a text and for every
text obtained from it by changing the case of ASCII letters, in particular for
the text with its ASCII letters in lower case and for the text with its ASCII
letters in upper case; it also returns the same pair for the text and for its
lower-cased form `strings.ToLower` gives. -/
theorem extractValuesFromText_case_insensitive :
    (∀ text variant : String, caseVariant text variant = true →
      AIService.extractValuesFromText variant = AIService.extractValuesFromText text) ∧
    (∀ text : String,
      caseVariant text (asciiLower text) = true ∧ caseVariant text (ToUpper text) = true ∧
      AIService.extractValuesFromText (ToLower text) = AIService.extractValuesFromText text ∧
      AIService.extractValuesFromText (asciiLower text)
        = AIService.extractValuesFromText text ∧
      AIService.extractValuesFromText (ToUpper text) = AIService.extractValuesFromText text) := by
  have hv : ∀ text variant : String, caseVariant text variant = true →
      AIService.extractValuesFromText variant = AIService.extractValuesFromText text :=
    fun text variant h => extractValuesFromText_congr text variant (caseVariant_toLower _ _ h)
  have hl : ∀ text : String, caseVariant text (asciiLower text) = true :=
    fun text => caseVariantChars_mapped asciiLowerRune sameLetter_lower text.data
  have hu : ∀ text : String, caseVariant text (ToUpper text) = true :=
    fun text => caseVariantChars_mapped toUpperRune sameLetter_upper text.data
  exact ⟨hv, fun text => ⟨hl text, hu text,
    extractValuesFromText_congr text (ToLower text) (toLower_idempotent text),
    hv _ _ (hl text), hv _ _ (hu text)⟩⟩

/-- Witness of C19: two spellings of one sentence. -/
theorem extractValuesFromText_case_insensitive_witness :
    AIService.extractValuesFromText "the severity IS low, CATEGORY network"
      = AIService.extractValuesFromText "The SEVERITY is Low, category NetWork" :=
  extractValuesFromText_case_insensitive.1 "The SEVERITY is Low, category NetWork"
    "the severity IS low, CATEGORY network" (by decide)

/-! ## Lemmas on the create path -/

theorem analyzeIncident_rows (env : Env) (w : World) (title description : String) :
    (AIService.AnalyzeIncident env w title description).1.rows = w.rows := by
  unfold AIService.AnalyzeIncident
  by_cases hk : env.apiKey = ""
  · simp [hk, World.log]
  · simp only [hk, if_false]
    cases env.chat (AIService.prompt title description) with
    | error e => rfl
    | ok choices => cases choices <;> rfl

/-- What `CreateIncident` has done when it returns an incident. -/
theorem createIncident_created (env : Env) (w w1 : World) (incident created : Incident)
    (err : Option String)
    (h : IncidentService.CreateIncident env w incident = (w1, some created, err)) :
    err = none ∧ env.insertErr = none ∧ w1.rows = w.rows ++ [created] ∧
    created.ID = (if incident.ID = "" then env.uuid else incident.ID) ∧
    created.Title = incident.Title ∧ created.Description = incident.Description ∧
    created.Status = (if incident.Status = "" then "open" else incident.Status) ∧
    created.Priority = (if incident.Priority = "" then "medium" else incident.Priority) := by
  have hw := analyzeIncident_rows env w incident.Title incident.Description
  unfold IncidentService.CreateIncident at h
  cases ha : AIService.AnalyzeIncident env w incident.Title incident.Description with
  | mk w2 analysis =>
    rw [ha] at hw
    simp only at hw
    by_cases hs : incident.Status = "" <;> by_cases hp : incident.Priority = "" <;>
      by_cases hid : incident.ID = "" <;>
      simp only [hs, hp, if_true, if_false, ha] at h <;>
      unfold IncidentRepository.Create at h <;>
      cases hi : env.insertErr <;>
      simp only [hi, Prod.mk.injEq, Option.some.injEq, reduceCtorEq, false_and, and_false]
        at h <;>
      obtain ⟨h1, h2, h3⟩ := h <;>
      subst h1 h2 h3 <;>
      cases analysis <;>
      simp [applyColumnDefaults, Incident.BeforeCreate, World.log, hw, hs, hp, hid]

theorem validateAndGetErrors_none (i : Incident) (h : ValidateAndGetErrors i.fields = none) :
    ∀ f ∈ i.fields, firstFailure f.Tags f.Value = none := by
  rw [validateAndGetErrors_of_nodup i.fields (incident_keys_nodup i)] at h
  have hv : validateStruct i.fields = [] := by
    by_cases hv : validateStruct i.fields = []
    · exact hv
    · simp [hv] at h
  intro f hf
  unfold validateStruct at hv
  have hnone : validateField f = none := by
    cases hvf : validateField f with
    | none => rfl
    | some e =>
      have : e ∈ i.fields.filterMap validateField := List.mem_filterMap.mpr ⟨f, hf, hvf⟩
      rw [hv] at this
      cases this
  unfold validateField at hnone
  cases hff : firstFailure f.Tags f.Value with
  | none => rfl
  | some t => rw [hff] at hnone; cases hnone

/-- What validation has established when it reports no error. -/
theorem validateAndGetErrors_none_fields (i : Incident)
    (h : ValidateAndGetErrors i.fields = none) :
    (i.ID = "" ∨ isUUID4 i.ID = true) ∧
    (i.Status = "" ∨ i.Status ∈ ["open", "in_progress", "resolved", "closed"]) ∧
    (i.Priority = "" ∨ i.Priority ∈ ["low", "medium", "high", "critical"]) := by
  have hall := validateAndGetErrors_none i h
  have hs : oneofValues "open in_progress resolved closed"
      = ["open", "in_progress", "resolved", "closed"] := by decide
  have hp : oneofValues "low medium high critical" = ["low", "medium", "high", "critical"] := by
    decide
  refine ⟨?_, ?_, ?_⟩
  · have := hall ⟨"ID", i.ID, [.omitempty, .uuid4]⟩ (by simp [Incident.fields])
    by_cases hid : i.ID = ""
    · exact Or.inl hid
    · right
      by_cases hu : isUUID4 i.ID = true
      · exact hu
      · simp [firstFailure, Tag.holds, hid, hu] at this
  · have := hall ⟨"Status", i.Status, [.omitempty, .oneof "open in_progress resolved closed"]⟩
      (by simp [Incident.fields])
    simp only [firstFailure_oneof, hs] at this
    by_cases hc : i.Status = "" ∨ i.Status ∈ ["open", "in_progress", "resolved", "closed"]
    · exact hc
    · rw [if_neg hc] at this
      cases this
  · have := hall ⟨"Priority", i.Priority, [.omitempty, .oneof "low medium high critical"]⟩
      (by simp [Incident.fields])
    simp only [firstFailure_oneof, hp] at this
    by_cases hc : i.Priority = "" ∨ i.Priority ∈ ["low", "medium", "high", "critical"]
    · exact hc
    · rw [if_neg hc] at this
      cases this

/-- What the create handler has done when it answers 201 with an incident. -/
theorem createHandler_created (env : Env) (w w1 : World) (bound : Except String Incident)
    (created : Incident)
    (h : IncidentHandler.CreateIncident env w bound = (w1, ⟨201, .incident created⟩)) :
    ∃ incident : Incident, bound = .ok incident ∧
      ValidateAndGetErrors incident.fields = none ∧
      w1.rows = w.rows ++ [created] ∧
      created.ID = (if incident.ID = "" then env.uuid else incident.ID) ∧
      created.Title = incident.Title ∧ created.Description = incident.Description ∧
      created.Status = (if incident.Status = "" then "open" else incident.Status) ∧
      created.Priority = (if incident.Priority = "" then "medium" else incident.Priority) := by
  unfold IncidentHandler.CreateIncident at h
  cases bound with
  | error e => simp at h
  | ok incident =>
    refine ⟨incident, rfl, ?_⟩
    cases hv : ValidateAndGetErrors incident.fields with
    | some m => simp [hv] at h
    | none =>
      refine ⟨rfl, ?_⟩
      simp only [hv] at h
      by_cases hs : incident.Status = "" <;> by_cases hp : incident.Priority = "" <;>
        simp only [hs, hp, if_true, if_false] at h ⊢ <;>
        (split at h
         · simp at h
         · rename_i hc
           simp only [Prod.mk.injEq, Response.mk.injEq, Body.incident.injEq, true_and] at h
           obtain ⟨h1, h2⟩ := h
           subst h1 h2
           have := createIncident_created _ _ _ _ _ _ hc
           simpa [hs, hp] using this.2.2
         · simp at h)

/-! ## Created incidents -/

/-- C11: an incident returned by the create handler with status 201 has its
status in {open, in_progress, resolved, closed} and its priority in
{low, medium, high, critical}: the request passed validation with each of the
two empty or in its set, and the returned value is open / medium where the
request had the empty value and the value of the request otherwise; title and
description are those of the request. -/
theorem createHandler_status_priority_in_sets (env : Env) (w w1 : World)
    (bound : Except String Incident) (created : Incident)
    (h : IncidentHandler.CreateIncident env w bound = (w1, ⟨201, .incident created⟩)) :
    created.Status ∈ ["open", "in_progress", "resolved", "closed"] ∧
    created.Priority ∈ ["low", "medium", "high", "critical"] ∧
    ∃ incident : Incident, bound = .ok incident ∧
      (incident.Status = "" ∨ incident.Status ∈ ["open", "in_progress", "resolved", "closed"]) ∧
      (incident.Priority = "" ∨ incident.Priority ∈ ["low", "medium", "high", "critical"]) ∧
      created.Status = (if incident.Status = "" then "open" else incident.Status) ∧
      created.Priority = (if incident.Priority = "" then "medium" else incident.Priority) ∧
      created.Title = incident.Title ∧ created.Description = incident.Description := by
  obtain ⟨incident, hb, hv, _, _, ht, hd, hs, hp⟩ := createHandler_created env w w1 bound created h
  obtain ⟨_, hsv, hpv⟩ := validateAndGetErrors_none_fields incident hv
  refine ⟨?_, ?_, incident, hb, hsv, hpv, hs, hp, ht, hd⟩
  · rw [hs]
    by_cases he : incident.Status = ""
    · simp [he]
    · simpa [he] using hsv
  · rw [hp]
    by_cases he : incident.Priority = ""
    · simp [he]
    · simpa [he] using hpv

/-- Witness of C11: the sample request is answered 201 with `offlineCreated`,
whose status and priority are the defaults. -/
theorem createHandler_status_priority_in_sets_witness :
    offlineCreated.Status ∈ ["open", "in_progress", "resolved", "closed"] ∧
    offlineCreated.Priority ∈ ["low", "medium", "high", "critical"] :=
  ⟨(createHandler_status_priority_in_sets offlineEnv emptyWorld
      (IncidentHandler.CreateIncident offlineEnv emptyWorld (.ok sampleIncident)).1
      (.ok sampleIncident) offlineCreated rfl).1,
   (createHandler_status_priority_in_sets offlineEnv emptyWorld
      (IncidentHandler.CreateIncident offlineEnv emptyWorld (.ok sampleIncident)).1
      (.ok sampleIncident) offlineCreated rfl).2.1⟩

/-- Counterexample to C12: the request `suppliedIdIncident` carries a non-empty
id; it passes validation, is answered 201, and the incident returned and
stored has the caller's id, not the one the generator hands out. -/
theorem createHandler_keeps_supplied_id :
    ∃ (w1 : World) (created : Incident),
      IncidentHandler.CreateIncident offlineEnv emptyWorld (.ok suppliedIdIncident)
        = (w1, ⟨201, .incident created⟩) ∧
      w1.rows = [created] ∧
      suppliedIdIncident.ID ≠ "" ∧
      created.ID = suppliedIdIncident.ID ∧
      created.ID ≠ offlineEnv.uuid := by
  refine ⟨(IncidentHandler.CreateIncident offlineEnv emptyWorld (.ok suppliedIdIncident)).1,
    { offlineCreated with ID := "123e4567-e89b-42d3-a456-426614174000" }, rfl, rfl,
    by decide, rfl, by decide⟩

/-- C12 as amended: for a request answered 201 the incident returned is the row
added to the table and its id is a non-empty version-4 UUID string; when the
request carried no id it is the identifier generated on creation, and when the
request carried a non-empty id, which validation admits only as a version-4
UUID, it is that id. -/
theorem createHandler_id (env : Env) (w w1 : World) (bound : Except String Incident)
    (created : Incident)
    (h : IncidentHandler.CreateIncident env w bound = (w1, ⟨201, .incident created⟩)) :
    ∃ incident : Incident, bound = .ok incident ∧
      w1.rows = w.rows ++ [created] ∧
      created.ID ≠ "" ∧ isUUID4 created.ID = true ∧
      (incident.ID = "" → created.ID = uuidString (newUUID env.random)) ∧
      (incident.ID ≠ "" → created.ID = incident.ID ∧ isUUID4 incident.ID = true) := by
  obtain ⟨incident, hb, hv, hrows, hid, _⟩ := createHandler_created env w w1 bound created h
  obtain ⟨hidv, _⟩ := validateAndGetErrors_none_fields incident hv
  have hvalid : isUUID4 created.ID = true := by
    rw [hid]
    by_cases he : incident.ID = ""
    · simp only [he, if_true]
      exact (env_uuid_valid env).1
    · simp only [he, if_false]
      rcases hidv with h0 | h0
      · exact absurd h0 he
      · exact h0
  refine ⟨incident, hb, hrows, ne_empty_of_isUUID4 _ hvalid, hvalid, ?_, ?_⟩
  · intro he
    rw [hid]
    simp [he, Env.uuid]
  · intro hne
    rw [hid]
    refine ⟨by simp [hne], ?_⟩
    rcases hidv with h0 | h0
    · exact absurd h0 hne
    · exact h0

/-- Witness of C12 as amended: the sample request carries no id and is stored
under the generated identifier, a non-empty version-4 UUID string. -/
theorem createHandler_id_witness :
    (IncidentHandler.CreateIncident offlineEnv emptyWorld (.ok sampleIncident)).1.rows
      = emptyWorld.rows ++ [offlineCreated] ∧
    offlineCreated.ID = "0b8f7a52-3c1d-4e6f-9a2b-5d7c8e9f0a1b" ∧
    offlineCreated.ID = uuidString (newUUID offlineEnv.random) ∧
    offlineCreated.ID ≠ "" ∧ isUUID4 offlineCreated.ID = true := by
  obtain ⟨incident, hb, hrows, hne, hvalid, hempty, _⟩ := createHandler_id offlineEnv
    emptyWorld (IncidentHandler.CreateIncident offlineEnv emptyWorld (.ok sampleIncident)).1
    (.ok sampleIncident) offlineCreated rfl
  have hi : incident = sampleIncident := (Except.ok.inj hb).symm
  exact ⟨hrows, rfl, hempty (by rw [hi]; rfl), hne, hvalid⟩

/-! ## The classifier in live mode -/

/-- C13: in live mode, when the content of the first choice decodes to a
structured object, `AnalyzeIncident` returns the decoded severity if its
lower-cased form is one of low, medium, high and medium otherwise, and the
decoded category if its lower-cased form is one of network, software,
hardware, security and software otherwise; each field is decided by its own
decoded value alone, and a missing field, decoded as the empty string, is
replaced by its default. -/
theorem analyzeIncident_structured (env : Env) (w : World) (title description : String)
    (choice : String) (rest : List String) (parsed : AIAnalysisResult)
    (hkey : env.apiKey ≠ "")
    (hchat : env.chat (AIService.prompt title description) = .ok (choice :: rest))
    (hparse : env.unmarshal (TrimSpace choice) = some parsed) :
    ∃ r : AIAnalysisResult,
      (AIService.AnalyzeIncident env w title description).2 = .ok r ∧
      r.Severity = (if ToLower parsed.Severity ∈ ["low", "medium", "high"]
        then parsed.Severity else "medium") ∧
      r.Category = (if ToLower parsed.Category ∈ ["network", "software", "hardware", "security"]
        then parsed.Category else "software") ∧
      (parsed.Severity = "" → r.Severity = "medium") ∧
      (parsed.Category = "" → r.Category = "software") := by
  have hsev : (AIService.revalidate parsed).Severity =
      (if ToLower parsed.Severity ∈ ["low", "medium", "high"]
        then parsed.Severity else "medium") := by
    unfold AIService.revalidate
    by_cases h1 : AIService.isValidSeverity parsed.Severity = true <;>
      by_cases h2 : AIService.isValidCategory parsed.Category = true <;>
      simp only [h1, h2, Bool.not_true, Bool.not_false, if_true, if_false,
        Bool.false_eq_true, Bool.not_eq_true] <;>
      first
        | rw [if_pos ((isValidSeverity_iff _).mp h1)]
        | rw [if_neg (mt (isValidSeverity_iff _).mpr h1)]
  have hcat : (AIService.revalidate parsed).Category =
      (if ToLower parsed.Category ∈ ["network", "software", "hardware", "security"]
        then parsed.Category else "software") := by
    unfold AIService.revalidate
    by_cases h1 : AIService.isValidSeverity parsed.Severity = true <;>
      by_cases h2 : AIService.isValidCategory parsed.Category = true <;>
      simp only [h1, h2, Bool.not_true, Bool.not_false, if_true, if_false,
        Bool.false_eq_true, Bool.not_eq_true] <;>
      first
        | rw [if_pos ((isValidCategory_iff _).mp h2)]
        | rw [if_neg (mt (isValidCategory_iff _).mpr h2)]
  refine ⟨AIService.revalidate parsed, ?_, hsev, hcat, ?_, ?_⟩
  · unfold AIService.AnalyzeIncident
    simp only [hkey, if_false, hchat, hparse]
  · intro he
    rw [hsev, he]
    decide
  · intro he
    rw [hcat, he]
    decide

/-- Witness of C13: a reply with a severity and no category gives
(high, software); decoded values whose lower-cased forms are high and network
through runes outside ASCII are kept as they are. -/
theorem analyzeIncident_structured_witness :
    (∃ r : AIAnalysisResult,
      (AIService.AnalyzeIncident partialReplyEnv emptyWorld "Router down" "No answer").2
        = .ok r ∧
      r.Severity = "high" ∧ r.Category = "software") ∧
    ∃ r : AIAnalysisResult,
      (AIService.AnalyzeIncident foldedReplyEnv emptyWorld "Router down" "No answer").2
        = .ok r ∧
      r.Severity = "H\u0130GH" ∧ r.Category = "NETWOR\u212A" := by
  constructor
  · obtain ⟨r, hr, hs, _, _, hc⟩ := analyzeIncident_structured partialReplyEnv emptyWorld
      "Router down" "No answer" "\x7b\"severity\":\"high\"\x7d" [] ⟨"high", ""⟩
      (by decide) rfl (by decide)
    exact ⟨r, hr, hs.trans (by decide), hc rfl⟩
  · obtain ⟨r, hr, hs, hc, _⟩ := analyzeIncident_structured foldedReplyEnv emptyWorld
      "Router down" "No answer" "reply" [] ⟨"H\u0130GH", "NETWOR\u212A"⟩
      (by decide) rfl rfl
    exact ⟨r, hr, hs.trans (by decide), hc.trans (by decide)⟩

/-- Counterexample to C14: in live mode, when the only choice has the empty
string as content, `AnalyzeIncident` signals no error and returns the
classification (medium, software). -/
theorem analyzeIncident_empty_content_no_error :
    emptyReplyEnv.apiKey ≠ "" ∧
    emptyReplyEnv.chat (AIService.prompt "Router down" "No answer") = .ok [""] ∧
    (AIService.AnalyzeIncident emptyReplyEnv emptyWorld "Router down" "No answer").2
      = .ok ⟨"medium", "software"⟩ :=
  ⟨by decide, rfl, rfl⟩

/-- C14 as amended: in live mode `AnalyzeIncident` signals an error and returns
no classification when the endpoint call fails and when the response carries
no choices; when the content of the first choice is empty (after trimming) it
signals no error and returns a classification, namely (medium, software) as
the empty string does not decode. -/
theorem analyzeIncident_failures (env : Env) (w : World) (title description : String)
    (hkey : env.apiKey ≠ "") :
    (∀ e : String, env.chat (AIService.prompt title description) = .error e →
      (AIService.AnalyzeIncident env w title description).2
        = .error ("OpenAI API error: " ++ e)) ∧
    (env.chat (AIService.prompt title description) = .ok [] →
      (AIService.AnalyzeIncident env w title description).2
        = .error "no response from OpenAI") ∧
    (∀ (choice : String) (rest : List String),
      env.chat (AIService.prompt title description) = .ok (choice :: rest) →
      TrimSpace choice = "" →
      ∃ r : AIAnalysisResult,
        (AIService.AnalyzeIncident env w title description).2 = .ok r ∧
        (env.unmarshal "" = none → r = ⟨"medium", "software"⟩)) := by
  refine ⟨?_, ?_, ?_⟩
  · intro e he
    unfold AIService.AnalyzeIncident
    simp only [hkey, if_false, he]
  · intro he
    unfold AIService.AnalyzeIncident
    simp only [hkey, if_false, he]
  · intro choice rest hc ht
    refine ⟨AIService.revalidate
      (match env.unmarshal "" with
        | some result => result
        | none => AIService.extractValuesFromText ""), ?_, ?_⟩
    · unfold AIService.AnalyzeIncident
      simp only [hkey, if_false, hc, ht]
    · intro hu
      simp only [hu]
      decide

/-- Witness of C14 as amended: an unreachable endpoint and an endpoint without
choices give an error, an empty content gives (medium, software). -/
theorem analyzeIncident_failures_witness :
    (AIService.AnalyzeIncident unreachableEnv emptyWorld "Router down" "No answer").2
      = .error "OpenAI API error: connection refused" ∧
    (AIService.AnalyzeIncident noChoiceEnv emptyWorld "Router down" "No answer").2
      = .error "no response from OpenAI" ∧
    ∃ r : AIAnalysisResult,
      (AIService.AnalyzeIncident emptyReplyEnv emptyWorld "Router down" "No answer").2 = .ok r ∧
      r = ⟨"medium", "software"⟩ := by
  refine ⟨(analyzeIncident_failures unreachableEnv emptyWorld "Router down" "No answer"
      (by decide)).1 "connection refused" rfl,
    (analyzeIncident_failures noChoiceEnv emptyWorld "Router down" "No answer"
      (by decide)).2.1 rfl, ?_⟩
  obtain ⟨r, hr, hd⟩ := (analyzeIncident_failures emptyReplyEnv emptyWorld "Router down"
    "No answer" (by decide)).2.2 "" [] rfl (by decide)
  exact ⟨r, hr, hd (by decide)⟩

/-! ## Reading -/

/-- C20: `GetAllIncidents` returns exactly what the store's `GetAll` returns,
world, sequence and error; the call leaves the table as it was, a successful
call returns the rows of the table as they are, and a second call right after
the first returns the same sequence and error whenever the store's retrieval
does, in particular whenever the database reports the same outcome. -/
theorem getAllIncidents_passthrough (env : Env) (w : World) :
    IncidentService.GetAllIncidents env w = IncidentRepository.GetAll env w ∧
    (IncidentService.GetAllIncidents env w).1.rows = w.rows ∧
    (env.findErr = none → (IncidentService.GetAllIncidents env w).2 = (w.rows, none)) ∧
    (∀ env2 : Env,
      (IncidentRepository.GetAll env2 (IncidentService.GetAllIncidents env w).1).2
        = (IncidentRepository.GetAll env w).2 →
      (IncidentService.GetAllIncidents env2 (IncidentService.GetAllIncidents env w).1).2
        = (IncidentService.GetAllIncidents env w).2) ∧
    (∀ env2 : Env, env2.findErr = env.findErr →
      (IncidentService.GetAllIncidents env2 (IncidentService.GetAllIncidents env w).1).2
        = (IncidentService.GetAllIncidents env w).2) := by
  refine ⟨rfl, ?_, ?_, fun env2 h => h, ?_⟩
  · unfold IncidentService.GetAllIncidents IncidentRepository.GetAll
    cases env.findErr <;> rfl
  · intro h
    unfold IncidentService.GetAllIncidents IncidentRepository.GetAll
    simp [h, World.log]
  · intro env2 h
    unfold IncidentService.GetAllIncidents IncidentRepository.GetAll
    rw [h]
    cases env.findErr <;> simp [World.log]

/-- Witness of C20: two reads of a table with one row. -/
theorem getAllIncidents_passthrough_witness :
    (IncidentService.GetAllIncidents offlineEnv oneRowWorld).2 = ([offlineCreated], none) ∧
    (IncidentService.GetAllIncidents liveEnv
        (IncidentService.GetAllIncidents offlineEnv oneRowWorld).1).2
      = (IncidentService.GetAllIncidents offlineEnv oneRowWorld).2 :=
  ⟨(getAllIncidents_passthrough offlineEnv oneRowWorld).2.2.1 rfl,
   (getAllIncidents_passthrough offlineEnv oneRowWorld).2.2.2.2 liveEnv rfl⟩

/-! ## Lemmas on trimming -/

theorem trimLeft_split (l : List Char) :
    ∃ pre : List Char, l = pre ++ trimLeft l ∧ ∀ c ∈ pre, isSpace c = true := by
  induction l with
  | nil => exact ⟨[], rfl, by simp⟩
  | cons a rest ih =>
    by_cases ha : isSpace a = true
    · obtain ⟨pre, hpre, hall⟩ := ih
      refine ⟨a :: pre, ?_, ?_⟩
      · simp only [trimLeft, ha, if_true, List.cons_append]
        rw [← hpre]
      · intro c hc
        rcases List.mem_cons.mp hc with h | h
        · rw [h]; exact ha
        · exact hall c h
    · exact ⟨[], by simp [trimLeft, ha], by simp⟩

theorem trimLeft_head (l : List Char) (c : Char) (h : (trimLeft l).head? = some c) :
    isSpace c = false := by
  induction l with
  | nil => simp [trimLeft] at h
  | cons a rest ih =>
    by_cases ha : isSpace a = true
    · simp only [trimLeft, ha, if_true] at h
      exact ih h
    · simp only [trimLeft, ha, if_false, List.head?_cons, Option.some.injEq,
        Bool.false_eq_true] at h
      rw [← h]
      simpa using ha

theorem trimLeft_eq_self (l : List Char)
    (h : ∀ c, l.head? = some c → isSpace c = false) : trimLeft l = l := by
  cases l with
  | nil => rfl
  | cons a rest =>
    have ha : isSpace a = false := h a rfl
    simp [trimLeft, ha]

theorem trimLeft_eq_nil (l : List Char) (h : ∀ c ∈ l, isSpace c = true) : trimLeft l = [] := by
  induction l with
  | nil => rfl
  | cons a rest ih =>
    have ha : isSpace a = true := h a (List.mem_cons_self _ _)
    simp only [trimLeft, ha, if_true]
    exact ih fun c hc => h c (List.mem_cons_of_mem _ hc)

/-- The text as leading white space, trimmed text and trailing white space. -/
theorem trimSpace_split (s : String) :
    ∃ pre post : List Char, s.data = pre ++ (TrimSpace s).data ++ post ∧
      (∀ c ∈ pre, isSpace c = true) ∧ (∀ c ∈ post, isSpace c = true) := by
  obtain ⟨pre, hpre, hall⟩ := trimLeft_split s.data
  obtain ⟨post, hpost, hall2⟩ := trimLeft_split (trimLeft s.data).reverse
  refine ⟨pre, post.reverse, ?_, hall, ?_⟩
  · have hm : trimLeft s.data = (trimLeft (trimLeft s.data).reverse).reverse ++ post.reverse := by
      have := congrArg List.reverse hpost
      simpa using this
    show s.data = pre ++ (trimLeft (trimLeft s.data).reverse).reverse ++ post.reverse
    rw [List.append_assoc, ← hm]
    exact hpre
  · intro c hc
    exact hall2 c (List.mem_reverse.mp hc)

theorem trimSpace_head (s : String) (c : Char) (h : (TrimSpace s).data.head? = some c) :
    isSpace c = false := by
  obtain ⟨post, hpost, _⟩ := trimLeft_split (trimLeft s.data).reverse
  have hm : trimLeft s.data = (TrimSpace s).data ++ post.reverse := by
    have := congrArg List.reverse hpost
    simpa [TrimSpace] using this
  apply trimLeft_head s.data c
  rw [hm]
  cases hd : (TrimSpace s).data with
  | nil => rw [hd] at h; cases h
  | cons a rest =>
    rw [hd] at h
    simpa using h

theorem trimSpace_last (s : String) (c : Char) (h : (TrimSpace s).data.getLast? = some c) :
    isSpace c = false := by
  apply trimLeft_head (trimLeft s.data).reverse c
  have : (TrimSpace s).data = (trimLeft (trimLeft s.data).reverse).reverse := rfl
  rw [this, List.getLast?_reverse] at h
  exact h

theorem trimSpace_eq_self (s : String)
    (hfirst : ∀ c, s.data.head? = some c → isSpace c = false)
    (hlast : ∀ c, s.data.getLast? = some c → isSpace c = false) : TrimSpace s = s := by
  have h1 : trimLeft s.data = s.data := trimLeft_eq_self _ hfirst
  have h2 : trimLeft s.data.reverse = s.data.reverse :=
    trimLeft_eq_self _ (fun c hc => hlast c (by rw [List.head?_reverse] at hc; exact hc))
  unfold TrimSpace
  rw [h1, h2, List.reverse_reverse]

theorem trimSpace_eq_empty (s : String) (h : ∀ c ∈ s.data, isSpace c = true) :
    TrimSpace s = "" := by
  unfold TrimSpace
  rw [trimLeft_eq_nil _ h]
  rfl

theorem trimSpace_idempotent (s : String) : TrimSpace (TrimSpace s) = TrimSpace s :=
  trimSpace_eq_self _ (trimSpace_head s) (trimSpace_last s)

/-! ## Sanitising -/

/-- C21: `SanitizeString s` is s without its leading and trailing white space:
s is a run of white space, then the result, then a run of white space; the
result neither begins nor ends with a white-space rune and is a contiguous
block of s; it equals s when s neither begins nor ends with white space; it
is empty when s consists of white space only; and sanitising twice is
sanitising once. -/
theorem sanitizeString_trims (s : String) :
    (∃ pre post : List Char, s.data = pre ++ (SanitizeString s).data ++ post ∧
      (∀ c ∈ pre, isSpace c = true) ∧ (∀ c ∈ post, isSpace c = true)) ∧
    (∀ c, (SanitizeString s).data.head? = some c → isSpace c = false) ∧
    (∀ c, (SanitizeString s).data.getLast? = some c → isSpace c = false) ∧
    (SanitizeString s).data <:+: s.data ∧
    ((∀ c, s.data.head? = some c → isSpace c = false) →
      (∀ c, s.data.getLast? = some c → isSpace c = false) → SanitizeString s = s) ∧
    ((∀ c ∈ s.data, isSpace c = true) → SanitizeString s = "") ∧
    SanitizeString (SanitizeString s) = SanitizeString s := by
  refine ⟨trimSpace_split s, trimSpace_head s, trimSpace_last s, ?_, trimSpace_eq_self s,
    trimSpace_eq_empty s, trimSpace_idempotent s⟩
  obtain ⟨pre, post, h, _⟩ := trimSpace_split s
  exact ⟨pre, post, h.symm⟩

/-- Witness of C21: the inputs of the unit test. -/
theorem sanitizeString_trims_witness :
    SanitizeString "  hello world  " = "hello world" ∧
    SanitizeString "no spaces" = "no spaces" ∧
    SanitizeString "\t\n\r" = "" ∧
    (∀ c, (SanitizeString "  hello world  ").data.head? = some c → isSpace c = false) :=
  ⟨by decide,
   (sanitizeString_trims "no spaces").2.2.2.2.1 (by decide) (by decide),
   (sanitizeString_trims "\t\n\r").2.2.2.2.2.1 (by decide),
   (sanitizeString_trims "  hello world  ").2.1⟩

/-! ## Validity predicates and the reference scan -/

theorem toLower_of_caseVariant_member (m s : String) (hm : ToLower m = m)
    (h : caseVariant m s = true) : ToLower s = m := by
  rw [caseVariant_toLower m s h, hm]

/-- C22: `isValidSeverity s` holds exactly when the lower-cased s is one of
low, medium, high and `isValidCategory c` exactly when the lower-cased c is
one of network, software, hardware, security; hence both accept every
letter-case variant of a member, such as LOW, Medium and NETWORK, also a
spelling whose lower-cased form is a member through a rune outside ASCII (the
dotted capital U+0130 in high, the Kelvin sign U+212A in network), and both
reject the empty string, "critical" and "database". -/
theorem isValid_iff_lower_member :
    (∀ s : String,
      AIService.isValidSeverity s = true ↔ ToLower s ∈ ["low", "medium", "high"]) ∧
    (∀ c : String,
      AIService.isValidCategory c = true ↔
        ToLower c ∈ ["network", "software", "hardware", "security"]) ∧
    (∀ m ∈ ["low", "medium", "high"], ∀ s : String, caseVariant m s = true →
      AIService.isValidSeverity s = true) ∧
    (∀ m ∈ ["network", "software", "hardware", "security"], ∀ c : String,
      caseVariant m c = true → AIService.isValidCategory c = true) ∧
    AIService.isValidSeverity "LOW" = true ∧ AIService.isValidSeverity "Medium" = true ∧
    AIService.isValidCategory "NETWORK" = true ∧
    AIService.isValidSeverity "H\u0130GH" = true ∧
    AIService.isValidCategory "NETWOR\u212A" = true ∧
    AIService.isValidSeverity "" = false ∧ AIService.isValidSeverity "critical" = false ∧
    AIService.isValidSeverity "database" = false ∧
    AIService.isValidCategory "" = false ∧ AIService.isValidCategory "critical" = false ∧
    AIService.isValidCategory "database" = false := by
  refine ⟨isValidSeverity_iff, isValidCategory_iff, ?_, ?_, by decide, by decide, by decide,
    by decide, by decide, by decide, by decide, by decide, by decide, by decide, by decide⟩
  · intro m hm s hv
    rw [isValidSeverity_iff]
    have hlow : ToLower m = m := by
      simp only [List.mem_cons, List.mem_singleton, List.mem_nil_iff, or_false] at hm
      rcases hm with rfl | rfl | rfl <;> decide
    rw [toLower_of_caseVariant_member m s hlow hv]
    exact hm
  · intro m hm c hv
    rw [isValidCategory_iff]
    have hlow : ToLower m = m := by
      simp only [List.mem_cons, List.mem_singleton, List.mem_nil_iff, or_false] at hm
      rcases hm with rfl | rfl | rfl | rfl <;> decide
    rw [toLower_of_caseVariant_member m c hlow hv]
    exact hm

/-- Witness of C22: HiGh is a letter-case variant of high. -/
theorem isValid_iff_lower_member_witness :
    AIService.isValidSeverity "HiGh" = true ∧ AIService.isValidCategory "SecuritY" = true :=
  ⟨isValid_iff_lower_member.2.2.1 "high" (by decide) "HiGh" (by decide),
   isValid_iff_lower_member.2.2.2.1 "security" (by decide) "SecuritY" (by decide)⟩

/-- C23: `extractValuesFromText` is the reference scan of the lower-cased text.
Hence without the word severity the severity is medium whatever else occurs;
low wins over high whenever both occur, also when "low" is part of "slow" or
"below"; and for a text that contains both hardware and network the category
is hardware without the word category and network with it. -/
theorem extractValuesFromText_eq_referenceScan :
    (∀ text : String,
      AIService.extractValuesFromText text = referenceScan (ToLower text)) ∧
    (∀ text : String, Contains (ToLower text) "severity" = false →
      (AIService.extractValuesFromText text).Severity = "medium") ∧
    (∀ text : String, Contains (ToLower text) "severity" = true →
      Contains (ToLower text) "low" = true →
      (AIService.extractValuesFromText text).Severity = "low") ∧
    (∀ text : String, Contains (ToLower text) "hardware" = true →
      Contains (ToLower text) "network" = true →
      (AIService.extractValuesFromText text).Category =
        if Contains (ToLower text) "category" then "network" else "hardware") ∧
    (AIService.extractValuesFromText "high load, low memory").Severity = "medium" ∧
    (AIService.extractValuesFromText "severity high, the service is slow").Severity = "low" ∧
    (AIService.extractValuesFromText "severity high, below threshold").Severity = "low" ∧
    (AIService.extractValuesFromText "hardware and network fault").Category = "hardware" ∧
    (AIService.extractValuesFromText "category: hardware and network fault").Category
      = "network" := by
  have href : ∀ text : String,
      AIService.extractValuesFromText text = referenceScan (ToLower text) := by
    intro text
    rw [extractValuesFromText_eq]
    unfold referenceScan
    by_cases hs : Contains (ToLower text) "severity" = true <;> simp [hs]
  refine ⟨href, ?_, ?_, ?_, by decide, by decide, by decide, by decide, by decide⟩
  · intro text h
    rw [extractValuesFromText_eq]
    simp [h]
  · intro text h1 h2
    rw [extractValuesFromText_eq]
    simp [h1, h2]
  · intro text h1 h2
    rw [extractValuesFromText_eq]
    by_cases hc : Contains (ToLower text) "category" = true <;> simp [hc, h1, h2]

/-- Witness of C23: a text without the word severity, a text with both
severity keywords, and a text with hardware and network. -/
theorem extractValuesFromText_eq_referenceScan_witness :
    (AIService.extractValuesFromText "HIGH load, LOW memory").Severity = "medium" ∧
    (AIService.extractValuesFromText "Severity HIGH, the service is SLOW").Severity = "low" ∧
    (AIService.extractValuesFromText "Category: hardware and network fault").Category
      = "network" ∧
    AIService.extractValuesFromText "networ\u212A" = ⟨"medium", "network"⟩ :=
  ⟨extractValuesFromText_eq_referenceScan.2.1 "HIGH load, LOW memory" (by decide),
   extractValuesFromText_eq_referenceScan.2.2.1 "Severity HIGH, the service is SLOW"
     (by decide) (by decide),
   (extractValuesFromText_eq_referenceScan.2.2.2.1 "Category: hardware and network fault"
     (by decide) (by decide)).trans (by decide),
   (extractValuesFromText_eq_referenceScan.1 "networ\u212A").trans (by decide)⟩

/-- C24: for every incident `ValidateSeverity` implies `isValidSeverity` of its
`AISeverity` and `ValidateCategory` implies `isValidCategory` of its
`AICategory`; the converse fails: the classifier accepts HIGH and Network and
its re-validation returns them unchanged, while `ValidateSeverity` and
`ValidateCategory` reject them. -/
theorem classifier_validity_weaker :
    (∀ i : Incident, i.ValidateSeverity = true →
      AIService.isValidSeverity i.AISeverity = true) ∧
    (∀ i : Incident, i.ValidateCategory = true →
      AIService.isValidCategory i.AICategory = true) ∧
    AIService.isValidSeverity "HIGH" = true ∧ AIService.isValidCategory "Network" = true ∧
    AIService.revalidate ⟨"HIGH", "Network"⟩ = ⟨"HIGH", "Network"⟩ ∧
    Incident.ValidateSeverity { sampleIncident with AISeverity := "HIGH" } = false ∧
    Incident.ValidateCategory { sampleIncident with AICategory := "Network" } = false ∧
    ¬ (∀ i : Incident, AIService.isValidSeverity i.AISeverity = true →
      i.ValidateSeverity = true) ∧
    ¬ (∀ i : Incident, AIService.isValidCategory i.AICategory = true →
      i.ValidateCategory = true) := by
  refine ⟨?_, ?_, by decide, by decide, by decide, by decide, by decide, ?_, ?_⟩
  · intro i h
    have hm : i.AISeverity = "low" ∨ i.AISeverity = "medium" ∨ i.AISeverity = "high" := by
      simpa [Incident.ValidateSeverity] using h
    rcases hm with hm | hm | hm <;> rw [hm] <;> decide
  · intro i h
    have hm : i.AICategory = "network" ∨ i.AICategory = "software" ∨
        i.AICategory = "hardware" ∨ i.AICategory = "security" := by
      simpa [Incident.ValidateCategory] using h
    rcases hm with hm | hm | hm | hm <;> rw [hm] <;> decide
  · intro h
    have := h { sampleIncident with AISeverity := "HIGH" } (by decide)
    revert this
    decide
  · intro h
    have := h { sampleIncident with AICategory := "Network" } (by decide)
    revert this
    decide

/-- Witness of C24: an incident whose AI fields are members of the sets. -/
theorem classifier_validity_weaker_witness :
    AIService.isValidSeverity offlineCreated.AISeverity = true ∧
    AIService.isValidCategory offlineCreated.AICategory = true :=
  ⟨classifier_validity_weaker.1 offlineCreated (by decide),
   classifier_validity_weaker.2.1 offlineCreated (by decide)⟩

/-! ## Keys and messages of the validator -/

theorem validateField_required_cases (n v : String) (m : Nat) (err : FieldError)
    (h : validateField ⟨n, v, [.required, .min 1, .max m]⟩ = some err) :
    err = ⟨n, "required", ""⟩ ∨ err = ⟨n, "max", Nat.repr m⟩ := by
  unfold validateField at h
  simp only [firstFailure_required] at h
  by_cases hv : v = ""
  · simp only [hv, if_true, Option.some.injEq] at h
    exact Or.inl h.symm
  · by_cases hl : v.data.length ≤ m
    · simp only [hv, hl, if_true, if_false] at h
      cases h
    · simp only [hv, hl, if_false, Option.some.injEq] at h
      exact Or.inr h.symm

theorem validateField_oneof_cases (n v p : String) (err : FieldError)
    (h : validateField ⟨n, v, [.omitempty, .oneof p]⟩ = some err) :
    err = ⟨n, "oneof", p⟩ := by
  unfold validateField at h
  simp only [firstFailure_oneof] at h
  by_cases hc : v = "" ∨ v ∈ oneofValues p
  · rw [if_pos hc] at h
    cases h
  · rw [if_neg hc] at h
    simp only [Option.some.injEq] at h
    exact h.symm

theorem validateField_uuid4 (n v : String) :
    validateField ⟨n, v, [.omitempty, .uuid4]⟩ =
      if v = "" ∨ isUUID4 v = true then none else some ⟨n, "uuid4", ""⟩ := by
  unfold validateField
  by_cases hv : v = ""
  · simp [firstFailure, hv]
  · by_cases hu : isUUID4 v = true
    · simp [firstFailure, Tag.holds, hv, hu]
    · simp [firstFailure, Tag.holds, hv, hu, Tag.name, Tag.param]

/-- Every entry of the map returned for an incident is one of
`incidentEntries`. -/
theorem incident_entry_mem (i : Incident) (m : List (String × String)) (e : String × String)
    (hm : ValidateAndGetErrors i.fields = some m) (he : e ∈ m) : e ∈ incidentEntries := by
  rw [validateAndGetErrors_of_nodup i.fields (incident_keys_nodup i)] at hm
  by_cases hv : validateStruct i.fields = []
  · simp [hv] at hm
  · simp only [hv, if_false, Option.some.injEq] at hm
    rw [← hm] at he
    obtain ⟨err, herr, rfl⟩ := List.mem_map.mp he
    unfold validateStruct at herr
    obtain ⟨f, hf, hfe⟩ := List.mem_filterMap.mp herr
    simp only [Incident.fields, List.mem_cons, List.mem_singleton, List.mem_nil_iff,
      or_false] at hf
    rcases hf with rfl | rfl | rfl | rfl | rfl | rfl | rfl
    · rw [validateField_uuid4] at hfe
      by_cases hc : i.ID = "" ∨ isUUID4 i.ID = true
      · rw [if_pos hc] at hfe
        cases hfe
      · rw [if_neg hc] at hfe
        simp only [Option.some.injEq] at hfe
        subst hfe
        decide
    · rcases validateField_required_cases _ _ _ _ hfe with rfl | rfl <;> decide
    · rcases validateField_required_cases _ _ _ _ hfe with rfl | rfl <;> decide
    · rw [validateField_oneof_cases _ _ _ _ hfe]
      decide
    · rw [validateField_oneof_cases _ _ _ _ hfe]
      decide
    · rw [validateField_oneof_cases _ _ _ _ hfe]
      decide
    · rw [validateField_oneof_cases _ _ _ _ hfe]
      decide

theorem oneof_entry (i : Incident) (n v p : String)
    (hf : (⟨n, v, [.omitempty, .oneof p]⟩ : Field) ∈ i.fields)
    (hne : v ≠ "") (hout : v ∉ oneofValues p) :
    ∃ m, ValidateAndGetErrors i.fields = some m ∧
      (ToLower n, errorMessage (ToLower n) "oneof" p) ∈ m := by
  have hvf : validateField ⟨n, v, [.omitempty, .oneof p]⟩ = some ⟨n, "oneof", p⟩ := by
    unfold validateField
    simp only [firstFailure_oneof]
    rw [if_neg (by simp [hne, hout])]
    rfl
  exact incident_error_entry i _ _ hf hvf

theorem too_long_entry (i : Incident) (n v : String) (m : Nat)
    (hf : (⟨n, v, [.required, .min 1, .max m]⟩ : Field) ∈ i.fields) (hlen : m < v.length) :
    ∃ r, ValidateAndGetErrors i.fields = some r ∧
      (ToLower n, errorMessage (ToLower n) "max" (Nat.repr m)) ∈ r := by
  have hne : v ≠ "" := by
    rintro rfl
    simp at hlen
  have hl : ¬ v.data.length ≤ m := by
    have : v.length = v.data.length := rfl
    omega
  have hvf : validateField ⟨n, v, [.required, .min 1, .max m]⟩
      = some ⟨n, "max", Nat.repr m⟩ := by
    unfold validateField
    simp only [firstFailure_required]
    rw [if_neg hne, if_neg hl]
    rfl
  exact incident_error_entry i _ _ hf hvf

/-- C25: the keys of the map returned for an incident are the lower-cased Go
field names: every entry is one of `incidentEntries`, so its key is one of id,
title, description, status, priority, aiseverity, aicategory, never ai_severity
or ai_category, and no message says "must be at least"; an out-of-set
ai_severity is reported under aiseverity and an out-of-set ai_category under
aicategory, and violations of title, description, status, priority and id
under those names; the rule `min=1` is never the one reported after
`required`. -/
theorem validateAndGetErrors_incident_keys :
    (∀ (i : Incident) (m : List (String × String)) (e : String × String),
      ValidateAndGetErrors i.fields = some m → e ∈ m →
      e ∈ incidentEntries ∧
      e.1 ∈ ["id", "title", "description", "status", "priority", "aiseverity", "aicategory"] ∧
      e.1 ≠ "ai_severity" ∧ e.1 ≠ "ai_category" ∧
      Contains e.2 "must be at least" = false) ∧
    (∀ i : Incident, i.AISeverity ≠ "" → i.AISeverity ∉ ["low", "medium", "high"] →
      ∃ m, ValidateAndGetErrors i.fields = some m ∧
        ("aiseverity", "aiseverity must be one of: low medium high") ∈ m) ∧
    (∀ i : Incident, i.AICategory ≠ "" →
      i.AICategory ∉ ["network", "software", "hardware", "security"] →
      ∃ m, ValidateAndGetErrors i.fields = some m ∧
        ("aicategory", "aicategory must be one of: network software hardware security") ∈ m) ∧
    (∀ i : Incident, i.Status ≠ "" →
      i.Status ∉ ["open", "in_progress", "resolved", "closed"] →
      ∃ m, ValidateAndGetErrors i.fields = some m ∧
        ("status", "status must be one of: open in_progress resolved closed") ∈ m) ∧
    (∀ i : Incident, i.Priority ≠ "" → i.Priority ∉ ["low", "medium", "high", "critical"] →
      ∃ m, ValidateAndGetErrors i.fields = some m ∧
        ("priority", "priority must be one of: low medium high critical") ∈ m) ∧
    (∀ i : Incident, i.Title = "" →
      ∃ m, ValidateAndGetErrors i.fields = some m ∧ ("title", "title is required") ∈ m) ∧
    (∀ i : Incident, 200 < i.Title.length →
      ∃ m, ValidateAndGetErrors i.fields = some m ∧
        ("title", "title must be at most 200 characters") ∈ m) ∧
    (∀ i : Incident, i.Description = "" →
      ∃ m, ValidateAndGetErrors i.fields = some m ∧
        ("description", "description is required") ∈ m) ∧
    (∀ i : Incident, 1000 < i.Description.length →
      ∃ m, ValidateAndGetErrors i.fields = some m ∧
        ("description", "description must be at most 1000 characters") ∈ m) ∧
    (∀ i : Incident, i.ID ≠ "" → isUUID4 i.ID = false →
      ∃ m, ValidateAndGetErrors i.fields = some m ∧ ("id", "id must be a valid UUID") ∈ m) ∧
    (∀ (v : String) (n : Nat), firstFailure [.required, .min 1, .max n] v ≠ some (.min 1)) := by
  have hs : oneofValues "open in_progress resolved closed"
      = ["open", "in_progress", "resolved", "closed"] := by decide
  have hp : oneofValues "low medium high critical" = ["low", "medium", "high", "critical"] := by
    decide
  have hsev : oneofValues "low medium high" = ["low", "medium", "high"] := by decide
  have hcat : oneofValues "network software hardware security"
      = ["network", "software", "hardware", "security"] := by decide
  have hall : ∀ e ∈ incidentEntries,
      e.1 ∈ ["id", "title", "description", "status", "priority", "aiseverity", "aicategory"] ∧
      e.1 ≠ "ai_severity" ∧ e.1 ≠ "ai_category" ∧
      Contains e.2 "must be at least" = false := by decide
  refine ⟨?_, ?_, ?_, ?_, ?_, incident_empty_title_entry, ?_, incident_empty_description_entry,
    ?_, ?_, ?_⟩
  · intro i m e hm he
    have hmem := incident_entry_mem i m e hm he
    exact ⟨hmem, hall e hmem⟩
  · intro i hne hout
    exact oneof_entry i "AISeverity" i.AISeverity "low medium high"
      (by simp [Incident.fields]) hne (by rw [hsev]; exact hout)
  · intro i hne hout
    exact oneof_entry i "AICategory" i.AICategory "network software hardware security"
      (by simp [Incident.fields]) hne (by rw [hcat]; exact hout)
  · intro i hne hout
    exact oneof_entry i "Status" i.Status "open in_progress resolved closed"
      (by simp [Incident.fields]) hne (by rw [hs]; exact hout)
  · intro i hne hout
    exact oneof_entry i "Priority" i.Priority "low medium high critical"
      (by simp [Incident.fields]) hne (by rw [hp]; exact hout)
  · intro i hlen
    exact too_long_entry i "Title" i.Title 200 (by simp [Incident.fields]) hlen
  · intro i hlen
    exact too_long_entry i "Description" i.Description 1000 (by simp [Incident.fields]) hlen
  · intro i hne hu
    have hvf : validateField ⟨"ID", i.ID, [.omitempty, .uuid4]⟩ = some ⟨"ID", "uuid4", ""⟩ := by
      rw [validateField_uuid4, if_neg (by simp [hne, hu])]
    exact incident_error_entry i _ _ (by simp [Incident.fields]) hvf
  · intro v n
    rw [firstFailure_required]
    by_cases hv : v = ""
    · simp [hv]
    · by_cases hl : v.data.length ≤ n <;> simp [hv, hl]

/-- Witness of C25: an incident with ai_severity critical and ai_category
database has exactly the entries under aiseverity and aicategory. -/
theorem validateAndGetErrors_incident_keys_witness :
    ValidateAndGetErrors badAIFieldsIncident.fields = some
      [ ("aiseverity", "aiseverity must be one of: low medium high"),
        ("aicategory", "aicategory must be one of: network software hardware security") ] ∧
    (("aiseverity", "aiseverity must be one of: low medium high") : String × String)
      ∈ incidentEntries ∧
    ∃ m, ValidateAndGetErrors badAIFieldsIncident.fields = some m ∧
      ("aiseverity", "aiseverity must be one of: low medium high") ∈ m :=
  ⟨by decide,
   (validateAndGetErrors_incident_keys.1 badAIFieldsIncident
      [ ("aiseverity", "aiseverity must be one of: low medium high"),
        ("aicategory", "aicategory must be one of: network software hardware security") ]
      ("aiseverity", "aiseverity must be one of: low medium high") (by decide) (by decide)).1,
   validateAndGetErrors_incident_keys.2.1 badAIFieldsIncident (by decide) (by decide)⟩

end IncidentManagement
